import Mathlib

/-!
Verification development for the RISC-V random instruction generator
(`riscv_isa.py`, `patterns.py`, `sequence_patterns.py`, `generator.py`).

The Python code is shallowly embedded:
* Python unbounded integers become `Int`; register numbers and 32-bit
  instruction words become `Nat`.
* Python `x & (2^w - 1)` on a (possibly negative) integer equals
  `x mod 2^w` with a floor/Euclidean modulus, which for a positive modulus
  is Lean's `Int.emod`; Python's arithmetic shift `x >> k` is floor
  division by `2^k`, which for a positive divisor is Lean's `Int.ediv`
  (the `/` of `Int` in this toolchain, as `-7 / 2 = -4` shows).
* the global `random` stream is modelled by an explicit infinite stream of
  draws `RandStream := Nat → Nat`, threaded through every sampling
  function; seeding with a fixed seed corresponds to fixing the stream.
  Each call to `random.randint` / `random.choice` / `random.random` /
  `random.choices` consumes exactly one draw.
* Python exceptions (`ValueError`) become an `Except GErr` result; the
  one retry loop in `Registers.random_range` is modelled with an explicit
  fuel argument, `GErr.hung` standing for "did not exit the loop within
  the provided fuel".
-/

namespace RVGen

/-- Stream of pseudo-random draws: the value of draw `i` is `s i`. -/
def RandStream : Type := Nat → Nat

/-- Drop the first draw of a stream. -/
def RandStream.tail (s : RandStream) : RandStream := fun i => s (i + 1)

/-- Consume one draw. -/
def drawNat (s : RandStream) : Nat × RandStream := (s 0, s.tail)

/-- Build a stream from a list, padding with zeros (used for concrete runs). -/
def streamOf (l : List Nat) : RandStream := fun i => l.getD i 0

/-- Errors: a Python `ValueError` with its message, or non-termination of a
retry loop within the provided fuel. -/
inductive GErr where
  | valueError (msg : String)
  | hung
deriving DecidableEq, Repr

/-- Python `random.randint(lo, hi)` for integer bounds, one draw.  The call
sites in the source always have `lo ≤ hi`, so the draw is mapped into
`[lo, hi]` by a modulus. -/
def randInt (lo hi : Int) (s : RandStream) : Int × RandStream :=
  let (n, s) := drawNat s
  (lo + (n % (hi - lo + 1).toNat : Nat), s)

/-- Python `random.randint(lo, hi)` for register-like natural bounds. -/
def randNat (lo hi : Nat) (s : RandStream) : Nat × RandStream :=
  let (n, s) := drawNat s
  (lo + n % (hi + 1 - lo), s)

/-- Python `random.choice(l)`, one draw.  The source only calls it on
non-empty lists (guarded), so the default is never observable there. -/
def choiceD {α : Type} (l : List α) (dflt : α) (s : RandStream) : α × RandStream :=
  let (n, s) := drawNat s
  (l.getD (n % l.length) dflt, s)

/-- Python `random.random()`, one draw, modelled with a granularity of
1/1000; the claims about it quantify over all streams and densities, and
the two boundary densities 0 and 1 behave exactly as in Python
(`random() < 0.0` never holds, `random() < 1.0` always holds). -/
def randFloat (s : RandStream) : ℚ × RandStream :=
  let (n, s) := drawNat s
  ((n % 1000 : Nat) / 1000, s)

/-- Python two's-complement `x & (2^w - 1)` on an arbitrary integer: the
low `w` bits, i.e. `x mod 2^w` (floor modulus, non-negative). -/
def maskI (w : Nat) (x : Int) : Nat := (x % ((2 : Int) ^ w)).toNat

/-- Python arithmetic shift `x >> k`: floor division by `2^k`. -/
def pyShr (x : Int) (k : Nat) : Int := x / ((2 : Int) ^ k)

/-! ## Instruction format model (`riscv_isa.py`, class `InstructionFormat`) -/

/-- The six RISC-V instruction formats. -/
inductive InstructionFormat where
  | R | I | S | B | U | J
deriving DecidableEq, Repr

/-- Tags for the zero-argument immediate generators installed by
`RISCVISA._load_instructions`; running one consumes draws (see
`runImmFn`). -/
inductive ImmFn where
  | imm12bit      -- random.randint(-2048, 2047)
  | imm5bit       -- random.randint(0, 31)
  | immLoadStore  -- self.generate_load_store_offset (bound to the catalog)
  | immBranch     -- random.randint(-4096, 4094) & ~1
  | imm20bit      -- random.randint(-524288, 524287)
  | immJump       -- random.randint(-1048576, 1048574) & ~1
deriving DecidableEq, Repr

/-- An instruction definition (`riscv_isa.py`, class `Instruction`). -/
structure Instruction where
  name : String
  fmt : InstructionFormat
  opcode : Nat
  funct3 : Option Nat
  funct7 : Option Nat
  immGen : Option ImmFn
deriving DecidableEq, Repr

/-- The encoder `Instruction.encode` (`riscv_isa.py` lines 103-147),
field for field.  `funct3`/`funct7` are only consulted for formats whose
catalog entries always carry them; `getD 0` stands for the attribute
access that Python performs there.  Masks `x & 0xfff` on the possibly
negative immediate are `maskI`; shifts `imm >> k` are `pyShr`. -/
def encode (inst : Instruction) (rd rs1 rs2 : Nat) (imm : Int) : Nat :=
  match inst.fmt with
  | .R =>
      ((inst.funct7.getD 0 &&& 0x7f) <<< 25) ||| ((rs2 &&& 0x1f) <<< 20) |||
        ((rs1 &&& 0x1f) <<< 15) ||| ((inst.funct3.getD 0 &&& 0x7) <<< 12) |||
        ((rd &&& 0x1f) <<< 7) ||| (inst.opcode &&& 0x7f)
  | .I =>
      let imm12 := maskI 12 imm
      ((imm12 &&& 0xfff) <<< 20) ||| ((rs1 &&& 0x1f) <<< 15) |||
        ((inst.funct3.getD 0 &&& 0x7) <<< 12) ||| ((rd &&& 0x1f) <<< 7) |||
        (inst.opcode &&& 0x7f)
  | .S =>
      let imm11_5 := maskI 7 (pyShr imm 5)
      let imm4_0 := maskI 5 imm
      ((imm11_5 &&& 0x7f) <<< 25) ||| ((rs2 &&& 0x1f) <<< 20) |||
        ((rs1 &&& 0x1f) <<< 15) ||| ((inst.funct3.getD 0 &&& 0x7) <<< 12) |||
        ((imm4_0 &&& 0x1f) <<< 7) ||| (inst.opcode &&& 0x7f)
  | .B =>
      let imm12 := maskI 1 (pyShr imm 12)
      let imm10_5 := maskI 6 (pyShr imm 5)
      let imm4_1 := maskI 4 (pyShr imm 1)
      let imm11 := maskI 1 (pyShr imm 11)
      ((imm12 <<< 6 ||| imm10_5) <<< 25) ||| ((rs2 &&& 0x1f) <<< 20) |||
        ((rs1 &&& 0x1f) <<< 15) ||| ((inst.funct3.getD 0 &&& 0x7) <<< 12) |||
        ((imm4_1 <<< 1 ||| imm11) <<< 7) ||| (inst.opcode &&& 0x7f)
  | .U =>
      let imm31_12 := maskI 20 (pyShr imm 12)
      ((imm31_12 &&& 0xfffff) <<< 12) ||| ((rd &&& 0x1f) <<< 7) |||
        (inst.opcode &&& 0x7f)
  | .J =>
      let imm20 := maskI 1 (pyShr imm 20)
      let imm10_1 := maskI 10 (pyShr imm 1)
      let imm11 := maskI 1 (pyShr imm 11)
      let imm19_12 := maskI 8 (pyShr imm 12)
      let immEncoded := (imm20 <<< 19) ||| (imm10_1 <<< 9) ||| (imm11 <<< 8) ||| imm19_12
      ((immEncoded &&& 0xfffff) <<< 12) ||| ((rd &&& 0x1f) <<< 7) |||
        (inst.opcode &&& 0x7f)

/-- Specification-side definition, written from the spec's words (§4.1):
each register field masked to 5 bits, the immediate masked to its field
width, and the fields packed at their declared bit positions
(R: funct7[31:25] | rs2[24:20] | rs1[19:15] | funct3[14:12] | rd[11:7] |
opcode[6:0], and so on for I/S/B/U/J).  To be compared with `encode`. -/
def layoutWord (inst : Instruction) (rd rs1 rs2 : Nat) (imm : Int) : Nat :=
  let f3 := inst.funct3.getD 0 % 8
  let f7 := inst.funct7.getD 0 % 128
  let op := inst.opcode % 128
  match inst.fmt with
  | .R =>
      f7 * 2 ^ 25 + rs2 % 32 * 2 ^ 20 + rs1 % 32 * 2 ^ 15 + f3 * 2 ^ 12 +
        rd % 32 * 2 ^ 7 + op
  | .I =>
      maskI 12 imm * 2 ^ 20 + rs1 % 32 * 2 ^ 15 + f3 * 2 ^ 12 + rd % 32 * 2 ^ 7 + op
  | .S =>
      maskI 12 imm / 2 ^ 5 * 2 ^ 25 + rs2 % 32 * 2 ^ 20 + rs1 % 32 * 2 ^ 15 +
        f3 * 2 ^ 12 + maskI 12 imm % 2 ^ 5 * 2 ^ 7 + op
  | .B =>
      let m := maskI 13 imm
      (m / 2 ^ 12 * 2 ^ 6 + m / 2 ^ 5 % 2 ^ 6) * 2 ^ 25 + rs2 % 32 * 2 ^ 20 +
        rs1 % 32 * 2 ^ 15 + f3 * 2 ^ 12 +
        (m / 2 % 2 ^ 4 * 2 + m / 2 ^ 11 % 2) * 2 ^ 7 + op
  | .U =>
      maskI 32 imm / 2 ^ 12 * 2 ^ 12 + rd % 32 * 2 ^ 7 + op
  | .J =>
      let m := maskI 21 imm
      (m / 2 ^ 20 * 2 ^ 19 + m / 2 % 2 ^ 10 * 2 ^ 9 + m / 2 ^ 11 % 2 * 2 ^ 8 +
          m / 2 ^ 12 % 2 ^ 8) * 2 ^ 12 +
        rd % 32 * 2 ^ 7 + op

/-! ### Bit-field extraction helpers (claim-side, used to state properties
of encoded words) -/

/-- Bits [6:0] of a word: the opcode field. -/
def opcField (w : Nat) : Nat := w % 2 ^ 7

/-- Bits [11:7] of a word: the `rd` field (the low immediate field for S/B). -/
def rdField (w : Nat) : Nat := w / 2 ^ 7 % 2 ^ 5

/-- Bits [14:12] of a word: the `funct3` field. -/
def f3Field (w : Nat) : Nat := w / 2 ^ 12 % 2 ^ 3

/-- Bits [19:15] of a word: the `rs1` field. -/
def rs1Field (w : Nat) : Nat := w / 2 ^ 15 % 2 ^ 5

/-- Bits [24:20] of a word: the `rs2` field. -/
def rs2Field (w : Nat) : Nat := w / 2 ^ 20 % 2 ^ 5

/-- Bits [31:25] of a word: the `funct7` field (the high immediate field for S/B). -/
def f7Field (w : Nat) : Nat := w / 2 ^ 25 % 2 ^ 7

/-- Bits [31:20] of a word: the I-type immediate field. -/
def immIField (w : Nat) : Nat := w / 2 ^ 20 % 2 ^ 12

/-! ### Mask and or/add arithmetic lemmas -/

theorem and_hex7 (x : Nat) : x &&& 0x7 = x % 8 := by
  simpa using Nat.and_pow_two_sub_one_eq_mod x 3

theorem and_hex1f (x : Nat) : x &&& 0x1f = x % 32 := by
  simpa using Nat.and_pow_two_sub_one_eq_mod x 5

theorem and_hex7f (x : Nat) : x &&& 0x7f = x % 128 := by
  simpa using Nat.and_pow_two_sub_one_eq_mod x 7

theorem and_hexfff (x : Nat) : x &&& 0xfff = x % 4096 := by
  simpa using Nat.and_pow_two_sub_one_eq_mod x 12

theorem and_hexfffff (x : Nat) : x &&& 0xfffff = x % 1048576 := by
  simpa using Nat.and_pow_two_sub_one_eq_mod x 20

/-- Bitwise or of disjoint pieces is addition: if `2^n` divides `x` and
`y < 2^n` then `x ||| y = x + y`. -/
theorem or_eq_add (x y n : Nat) (h1 : 2 ^ n ∣ x) (h2 : y < 2 ^ n) :
    x ||| y = x + y := by
  obtain ⟨q, hq⟩ := h1
  subst hq
  exact (Nat.mul_add_lt_is_or h2 q).symm

theorem int_two_pow_cast (w : Nat) : ((2 : Int) ^ w) = ((2 ^ w : Nat) : Int) := by
  push_cast
  ring

/-- Values of `maskI w` are below `2^w`. -/
theorem maskI_lt (w : Nat) (x : Int) : maskI w x < 2 ^ w := by
  have h2 : (0 : Int) < 2 ^ w := by positivity
  have h1 := Int.emod_lt_of_pos x h2
  have h0 := Int.emod_nonneg x (ne_of_gt h2)
  unfold maskI
  rw [int_two_pow_cast] at h1 h0 ⊢
  omega

theorem maskI_nonneg_emod (w : Nat) (x : Int) :
    (maskI w x : Int) = x % 2 ^ w := by
  have h2 : (0 : Int) < 2 ^ w := by positivity
  have h0 := Int.emod_nonneg x (ne_of_gt h2)
  unfold maskI
  rw [int_two_pow_cast] at h0 ⊢
  omega

theorem mul_pow_lt_pow (x p q r : Nat) (h : x < 2 ^ p) (hr : p + q = r) :
    x * 2 ^ q < 2 ^ r := by
  subst hr
  rw [pow_add]
  exact mul_lt_mul_of_pos_right h (by positivity)

/-- Packing six disjoint fields at bits 25/20/15/12/7/0: or is addition. -/
theorem pack6 (a b c d e g : Nat) (hb : b < 2 ^ 5) (hc : c < 2 ^ 5)
    (hd : d < 2 ^ 3) (he : e < 2 ^ 5) (hg : g < 2 ^ 7) :
    a * 2 ^ 25 ||| b * 2 ^ 20 ||| c * 2 ^ 15 ||| d * 2 ^ 12 ||| e * 2 ^ 7 ||| g =
      a * 2 ^ 25 + b * 2 ^ 20 + c * 2 ^ 15 + d * 2 ^ 12 + e * 2 ^ 7 + g := by
  rw [or_eq_add (a * 2 ^ 25) (b * 2 ^ 20) 25 ⟨a, by ring⟩ (mul_pow_lt_pow b 5 20 25 hb rfl),
    or_eq_add (a * 2 ^ 25 + b * 2 ^ 20) (c * 2 ^ 15) 20 ⟨a * 2 ^ 5 + b, by ring⟩
      (mul_pow_lt_pow c 5 15 20 hc rfl),
    or_eq_add (a * 2 ^ 25 + b * 2 ^ 20 + c * 2 ^ 15) (d * 2 ^ 12) 15
      ⟨a * 2 ^ 10 + b * 2 ^ 5 + c, by ring⟩ (mul_pow_lt_pow d 3 12 15 hd rfl),
    or_eq_add (a * 2 ^ 25 + b * 2 ^ 20 + c * 2 ^ 15 + d * 2 ^ 12) (e * 2 ^ 7) 12
      ⟨a * 2 ^ 13 + b * 2 ^ 8 + c * 2 ^ 3 + d, by ring⟩ (mul_pow_lt_pow e 5 7 12 he rfl),
    or_eq_add (a * 2 ^ 25 + b * 2 ^ 20 + c * 2 ^ 15 + d * 2 ^ 12 + e * 2 ^ 7) g 7
      ⟨a * 2 ^ 18 + b * 2 ^ 13 + c * 2 ^ 8 + d * 2 ^ 5 + e, by ring⟩ hg]

/-- Packing five disjoint fields at bits 20/15/12/7/0 (I-type shape). -/
theorem pack5 (a c d e g : Nat) (hc : c < 2 ^ 5) (hd : d < 2 ^ 3)
    (he : e < 2 ^ 5) (hg : g < 2 ^ 7) :
    a * 2 ^ 20 ||| c * 2 ^ 15 ||| d * 2 ^ 12 ||| e * 2 ^ 7 ||| g =
      a * 2 ^ 20 + c * 2 ^ 15 + d * 2 ^ 12 + e * 2 ^ 7 + g := by
  rw [or_eq_add (a * 2 ^ 20) (c * 2 ^ 15) 20 ⟨a, by ring⟩ (mul_pow_lt_pow c 5 15 20 hc rfl),
    or_eq_add (a * 2 ^ 20 + c * 2 ^ 15) (d * 2 ^ 12) 15 ⟨a * 2 ^ 5 + c, by ring⟩
      (mul_pow_lt_pow d 3 12 15 hd rfl),
    or_eq_add (a * 2 ^ 20 + c * 2 ^ 15 + d * 2 ^ 12) (e * 2 ^ 7) 12
      ⟨a * 2 ^ 8 + c * 2 ^ 3 + d, by ring⟩ (mul_pow_lt_pow e 5 7 12 he rfl),
    or_eq_add (a * 2 ^ 20 + c * 2 ^ 15 + d * 2 ^ 12 + e * 2 ^ 7) g 7
      ⟨a * 2 ^ 13 + c * 2 ^ 8 + d * 2 ^ 5 + e, by ring⟩ hg]

/-- Packing three disjoint fields at bits 12/7/0 (U/J-type shape). -/
theorem pack3 (a e g : Nat) (he : e < 2 ^ 5) (hg : g < 2 ^ 7) :
    a * 2 ^ 12 ||| e * 2 ^ 7 ||| g = a * 2 ^ 12 + e * 2 ^ 7 + g := by
  rw [or_eq_add (a * 2 ^ 12) (e * 2 ^ 7) 12 ⟨a, by ring⟩ (mul_pow_lt_pow e 5 7 12 he rfl),
    or_eq_add (a * 2 ^ 12 + e * 2 ^ 7) g 7 ⟨a * 2 ^ 5 + e, by ring⟩ hg]

theorem encode_R_eq (inst : Instruction) (h : inst.fmt = .R) (rd rs1 rs2 : Nat)
    (imm : Int) : encode inst rd rs1 rs2 imm = layoutWord inst rd rs1 rs2 imm := by
  simp only [encode, layoutWord, h, and_hex7, and_hex1f, and_hex7f, Nat.shiftLeft_eq]
  exact pack6 _ _ _ _ _ _ (by omega) (by omega) (by omega) (by omega) (by omega)

theorem encode_I_eq (inst : Instruction) (h : inst.fmt = .I) (rd rs1 rs2 : Nat)
    (imm : Int) : encode inst rd rs1 rs2 imm = layoutWord inst rd rs1 rs2 imm := by
  simp only [encode, layoutWord, h, and_hex7, and_hex1f, and_hex7f, and_hexfff,
    Nat.shiftLeft_eq]
  have hm := maskI_lt 12 imm
  rw [pack5 (maskI 12 imm % 4096) (rs1 % 32) (inst.funct3.getD 0 % 8) (rd % 32)
    (inst.opcode % 128) (by omega) (by omega) (by omega) (by omega)]
  omega

theorem encode_S_eq (inst : Instruction) (h : inst.fmt = .S) (rd rs1 rs2 : Nat)
    (imm : Int) : encode inst rd rs1 rs2 imm = layoutWord inst rd rs1 rs2 imm := by
  simp only [encode, layoutWord, h, and_hex7, and_hex1f, and_hex7f, Nat.shiftLeft_eq]
  have hs1 : maskI 7 (pyShr imm 5) = maskI 12 imm / 2 ^ 5 := by
    unfold maskI pyShr
    omega
  have hs2 : maskI 5 imm = maskI 12 imm % 2 ^ 5 := by
    unfold maskI
    omega
  have hm := maskI_lt 12 imm
  rw [hs1, hs2,
    pack6 (maskI 12 imm / 2 ^ 5 % 128) (rs2 % 32) (rs1 % 32) (inst.funct3.getD 0 % 8)
      (maskI 12 imm % 2 ^ 5 % 32) (inst.opcode % 128) (by omega) (by omega) (by omega)
      (by omega) (by omega)]
  omega

theorem encode_B_eq (inst : Instruction) (h : inst.fmt = .B) (rd rs1 rs2 : Nat)
    (imm : Int) : encode inst rd rs1 rs2 imm = layoutWord inst rd rs1 rs2 imm := by
  simp only [encode, layoutWord, h, and_hex7, and_hex1f, and_hex7f, Nat.shiftLeft_eq]
  have hb12 : maskI 1 (pyShr imm 12) = maskI 13 imm / 2 ^ 12 := by
    unfold maskI pyShr
    omega
  have hb105 : maskI 6 (pyShr imm 5) = maskI 13 imm / 2 ^ 5 % 2 ^ 6 := by
    unfold maskI pyShr
    omega
  have hb41 : maskI 4 (pyShr imm 1) = maskI 13 imm / 2 % 2 ^ 4 := by
    unfold maskI pyShr
    omega
  have hb11 : maskI 1 (pyShr imm 11) = maskI 13 imm / 2 ^ 11 % 2 := by
    unfold maskI pyShr
    omega
  have hm := maskI_lt 13 imm
  rw [hb12, hb105, hb41, hb11,
    or_eq_add (maskI 13 imm / 2 ^ 12 * 2 ^ 6) (maskI 13 imm / 2 ^ 5 % 2 ^ 6) 6
      ⟨maskI 13 imm / 2 ^ 12, by ring⟩ (by omega),
    or_eq_add (maskI 13 imm / 2 % 2 ^ 4 * 2 ^ 1) (maskI 13 imm / 2 ^ 11 % 2) 1
      ⟨maskI 13 imm / 2 % 2 ^ 4, by ring⟩ (by omega),
    pack6 (maskI 13 imm / 2 ^ 12 * 2 ^ 6 + maskI 13 imm / 2 ^ 5 % 2 ^ 6) (rs2 % 32)
      (rs1 % 32) (inst.funct3.getD 0 % 8)
      (maskI 13 imm / 2 % 2 ^ 4 * 2 ^ 1 + maskI 13 imm / 2 ^ 11 % 2) (inst.opcode % 128)
      (by omega) (by omega) (by omega) (by omega) (by omega)]

theorem encode_U_eq (inst : Instruction) (h : inst.fmt = .U) (rd rs1 rs2 : Nat)
    (imm : Int) : encode inst rd rs1 rs2 imm = layoutWord inst rd rs1 rs2 imm := by
  simp only [encode, layoutWord, h, and_hex1f, and_hex7f, and_hexfffff, Nat.shiftLeft_eq]
  have hu : maskI 20 (pyShr imm 12) = maskI 32 imm / 2 ^ 12 := by
    unfold maskI pyShr
    omega
  have hm := maskI_lt 32 imm
  rw [hu, pack3 (maskI 32 imm / 2 ^ 12 % 1048576) (rd % 32) (inst.opcode % 128)
    (by omega) (by omega)]
  omega

theorem encode_J_eq (inst : Instruction) (h : inst.fmt = .J) (rd rs1 rs2 : Nat)
    (imm : Int) : encode inst rd rs1 rs2 imm = layoutWord inst rd rs1 rs2 imm := by
  simp only [encode, layoutWord, h, and_hex1f, and_hex7f, and_hexfffff, Nat.shiftLeft_eq]
  have hj20 : maskI 1 (pyShr imm 20) = maskI 21 imm / 2 ^ 20 := by
    unfold maskI pyShr
    omega
  have hj101 : maskI 10 (pyShr imm 1) = maskI 21 imm / 2 % 2 ^ 10 := by
    unfold maskI pyShr
    omega
  have hj11 : maskI 1 (pyShr imm 11) = maskI 21 imm / 2 ^ 11 % 2 := by
    unfold maskI pyShr
    omega
  have hj1912 : maskI 8 (pyShr imm 12) = maskI 21 imm / 2 ^ 12 % 2 ^ 8 := by
    unfold maskI pyShr
    omega
  have hm := maskI_lt 21 imm
  rw [hj20, hj101, hj11, hj1912,
    or_eq_add (maskI 21 imm / 2 ^ 20 * 2 ^ 19) (maskI 21 imm / 2 % 2 ^ 10 * 2 ^ 9) 19
      ⟨maskI 21 imm / 2 ^ 20, by ring⟩ (by omega),
    or_eq_add (maskI 21 imm / 2 ^ 20 * 2 ^ 19 + maskI 21 imm / 2 % 2 ^ 10 * 2 ^ 9)
      (maskI 21 imm / 2 ^ 11 % 2 * 2 ^ 8) 9
      ⟨maskI 21 imm / 2 ^ 20 * 2 ^ 10 + maskI 21 imm / 2 % 2 ^ 10, by ring⟩ (by omega),
    or_eq_add (maskI 21 imm / 2 ^ 20 * 2 ^ 19 + maskI 21 imm / 2 % 2 ^ 10 * 2 ^ 9 +
        maskI 21 imm / 2 ^ 11 % 2 * 2 ^ 8) (maskI 21 imm / 2 ^ 12 % 2 ^ 8) 8
      ⟨maskI 21 imm / 2 ^ 20 * 2 ^ 11 + maskI 21 imm / 2 % 2 ^ 10 * 2 ^ 1 +
        maskI 21 imm / 2 ^ 11 % 2, by ring⟩ (by omega),
    pack3 ((maskI 21 imm / 2 ^ 20 * 2 ^ 19 + maskI 21 imm / 2 % 2 ^ 10 * 2 ^ 9 +
        maskI 21 imm / 2 ^ 11 % 2 * 2 ^ 8 + maskI 21 imm / 2 ^ 12 % 2 ^ 8) % 1048576)
      (rd % 32) (inst.opcode % 128) (by omega) (by omega)]
  omega

/-- The encoder agrees with the spec's declared field layout on every
format. -/
theorem encode_eq_layoutWord (inst : Instruction) (rd rs1 rs2 : Nat) (imm : Int) :
    encode inst rd rs1 rs2 imm = layoutWord inst rd rs1 rs2 imm := by
  rcases hf : inst.fmt
  · exact encode_R_eq inst hf rd rs1 rs2 imm
  · exact encode_I_eq inst hf rd rs1 rs2 imm
  · exact encode_S_eq inst hf rd rs1 rs2 imm
  · exact encode_B_eq inst hf rd rs1 rs2 imm
  · exact encode_U_eq inst hf rd rs1 rs2 imm
  · exact encode_J_eq inst hf rd rs1 rs2 imm

/-- Every encoded word fits in 32 bits. -/
theorem encode_lt_two_pow_32 (inst : Instruction) (rd rs1 rs2 : Nat) (imm : Int) :
    encode inst rd rs1 rs2 imm < 2 ^ 32 := by
  rw [encode_eq_layoutWord]
  have h12 := maskI_lt 12 imm
  have h13 := maskI_lt 13 imm
  have h21 := maskI_lt 21 imm
  have h32 := maskI_lt 32 imm
  rcases hf : inst.fmt <;> simp only [layoutWord, hf] <;> omega

/-! ### Field-extraction lemmas for encoded words -/

theorem opcField_encode (inst : Instruction) (rd rs1 rs2 : Nat) (imm : Int) :
    opcField (encode inst rd rs1 rs2 imm) = inst.opcode % 128 := by
  rw [encode_eq_layoutWord]
  rcases hf : inst.fmt <;> simp only [layoutWord, opcField, hf] <;> omega

theorem rdField_encode (inst : Instruction) (rd rs1 rs2 : Nat) (imm : Int)
    (h : inst.fmt = .R ∨ inst.fmt = .I ∨ inst.fmt = .U ∨ inst.fmt = .J) :
    rdField (encode inst rd rs1 rs2 imm) = rd % 32 := by
  rw [encode_eq_layoutWord]
  rcases h with h | h | h | h <;> simp only [layoutWord, rdField, h] <;> omega

theorem extract_field (A x B k w m : Nat) (hm : k + w = m) (hx : x < 2 ^ w)
    (hB : B < 2 ^ k) : (A * 2 ^ m + x * 2 ^ k + B) / 2 ^ k % 2 ^ w = x := by
  subst hm
  have h1 : A * 2 ^ (k + w) + x * 2 ^ k + B = B + (2 ^ w * A + x) * 2 ^ k := by ring
  rw [h1, Nat.add_mul_div_right _ _ (by positivity), Nat.div_eq_of_lt hB,
    Nat.zero_add, Nat.mul_add_mod, Nat.mod_eq_of_lt hx]

theorem rs1Field_encode (inst : Instruction) (rd rs1 rs2 : Nat) (imm : Int)
    (h : inst.fmt = .R ∨ inst.fmt = .I ∨ inst.fmt = .S ∨ inst.fmt = .B) :
    rs1Field (encode inst rd rs1 rs2 imm) = rs1 % 32 := by
  rw [encode_eq_layoutWord]
  have h12 := maskI_lt 12 imm
  have h13 := maskI_lt 13 imm
  have h32 : (32 : Nat) = 2 ^ 5 := rfl
  rcases h with h | h | h | h <;> simp only [layoutWord, rs1Field, h]
  · rw [show inst.funct7.getD 0 % 128 * 2 ^ 25 + rs2 % 32 * 2 ^ 20 + rs1 % 32 * 2 ^ 15 +
        inst.funct3.getD 0 % 8 * 2 ^ 12 + rd % 32 * 2 ^ 7 + inst.opcode % 128 =
        (inst.funct7.getD 0 % 128 * 2 ^ 5 + rs2 % 32) * 2 ^ 20 +
          rs1 % 32 * 2 ^ 15 +
          (inst.funct3.getD 0 % 8 * 2 ^ 12 + rd % 32 * 2 ^ 7 + inst.opcode % 128)
        from by ring,
      extract_field _ _ _ 15 5 20 rfl (by omega) (by omega), h32]
  · rw [show maskI 12 imm * 2 ^ 20 + rs1 % 32 * 2 ^ 15 +
        inst.funct3.getD 0 % 8 * 2 ^ 12 + rd % 32 * 2 ^ 7 + inst.opcode % 128 =
        maskI 12 imm * 2 ^ 20 + rs1 % 32 * 2 ^ 15 +
          (inst.funct3.getD 0 % 8 * 2 ^ 12 + rd % 32 * 2 ^ 7 + inst.opcode % 128)
        from by ring,
      extract_field _ _ _ 15 5 20 rfl (by omega) (by omega), h32]
  · rw [show maskI 12 imm / 2 ^ 5 * 2 ^ 25 + rs2 % 32 * 2 ^ 20 + rs1 % 32 * 2 ^ 15 +
        inst.funct3.getD 0 % 8 * 2 ^ 12 + maskI 12 imm % 2 ^ 5 * 2 ^ 7 +
        inst.opcode % 128 =
        (maskI 12 imm / 2 ^ 5 * 2 ^ 5 + rs2 % 32) * 2 ^ 20 +
          rs1 % 32 * 2 ^ 15 +
          (inst.funct3.getD 0 % 8 * 2 ^ 12 + maskI 12 imm % 2 ^ 5 * 2 ^ 7 +
            inst.opcode % 128)
        from by ring,
      extract_field _ _ _ 15 5 20 rfl (by omega) (by omega), h32]
  · rw [show (maskI 13 imm / 2 ^ 12 * 2 ^ 6 + maskI 13 imm / 2 ^ 5 % 2 ^ 6) * 2 ^ 25 +
        rs2 % 32 * 2 ^ 20 + rs1 % 32 * 2 ^ 15 + inst.funct3.getD 0 % 8 * 2 ^ 12 +
        (maskI 13 imm / 2 % 2 ^ 4 * 2 + maskI 13 imm / 2 ^ 11 % 2) * 2 ^ 7 +
        inst.opcode % 128 =
        ((maskI 13 imm / 2 ^ 12 * 2 ^ 6 + maskI 13 imm / 2 ^ 5 % 2 ^ 6) * 2 ^ 5 +
            rs2 % 32) * 2 ^ 20 +
          rs1 % 32 * 2 ^ 15 +
          (inst.funct3.getD 0 % 8 * 2 ^ 12 +
            (maskI 13 imm / 2 % 2 ^ 4 * 2 + maskI 13 imm / 2 ^ 11 % 2) * 2 ^ 7 +
            inst.opcode % 128)
        from by ring,
      extract_field _ _ _ 15 5 20 rfl (by omega) (by omega), h32]

theorem rs2Field_encode (inst : Instruction) (rd rs1 rs2 : Nat) (imm : Int)
    (h : inst.fmt = .R ∨ inst.fmt = .S ∨ inst.fmt = .B) :
    rs2Field (encode inst rd rs1 rs2 imm) = rs2 % 32 := by
  rw [encode_eq_layoutWord]
  have h12 := maskI_lt 12 imm
  have h13 := maskI_lt 13 imm
  have h32 : (32 : Nat) = 2 ^ 5 := rfl
  rcases h with h | h | h <;> simp only [layoutWord, rs2Field, h]
  · rw [show inst.funct7.getD 0 % 128 * 2 ^ 25 + rs2 % 32 * 2 ^ 20 + rs1 % 32 * 2 ^ 15 +
        inst.funct3.getD 0 % 8 * 2 ^ 12 + rd % 32 * 2 ^ 7 + inst.opcode % 128 =
        inst.funct7.getD 0 % 128 * 2 ^ 25 + rs2 % 32 * 2 ^ 20 +
          (rs1 % 32 * 2 ^ 15 + inst.funct3.getD 0 % 8 * 2 ^ 12 + rd % 32 * 2 ^ 7 +
            inst.opcode % 128)
        from by ring,
      extract_field _ _ _ 20 5 25 rfl (by omega) (by omega), h32]
  · rw [show maskI 12 imm / 2 ^ 5 * 2 ^ 25 + rs2 % 32 * 2 ^ 20 + rs1 % 32 * 2 ^ 15 +
        inst.funct3.getD 0 % 8 * 2 ^ 12 + maskI 12 imm % 2 ^ 5 * 2 ^ 7 +
        inst.opcode % 128 =
        maskI 12 imm / 2 ^ 5 * 2 ^ 25 + rs2 % 32 * 2 ^ 20 +
          (rs1 % 32 * 2 ^ 15 + inst.funct3.getD 0 % 8 * 2 ^ 12 +
            maskI 12 imm % 2 ^ 5 * 2 ^ 7 + inst.opcode % 128)
        from by ring,
      extract_field _ _ _ 20 5 25 rfl (by omega) (by omega), h32]
  · rw [show (maskI 13 imm / 2 ^ 12 * 2 ^ 6 + maskI 13 imm / 2 ^ 5 % 2 ^ 6) * 2 ^ 25 +
        rs2 % 32 * 2 ^ 20 + rs1 % 32 * 2 ^ 15 + inst.funct3.getD 0 % 8 * 2 ^ 12 +
        (maskI 13 imm / 2 % 2 ^ 4 * 2 + maskI 13 imm / 2 ^ 11 % 2) * 2 ^ 7 +
        inst.opcode % 128 =
        (maskI 13 imm / 2 ^ 12 * 2 ^ 6 + maskI 13 imm / 2 ^ 5 % 2 ^ 6) * 2 ^ 25 +
          rs2 % 32 * 2 ^ 20 +
          (rs1 % 32 * 2 ^ 15 + inst.funct3.getD 0 % 8 * 2 ^ 12 +
            (maskI 13 imm / 2 % 2 ^ 4 * 2 + maskI 13 imm / 2 ^ 11 % 2) * 2 ^ 7 +
            inst.opcode % 128)
        from by ring,
      extract_field _ _ _ 20 5 25 rfl (by omega) (by omega), h32]

theorem immIField_encode (inst : Instruction) (rd rs1 rs2 : Nat) (imm : Int)
    (h : inst.fmt = .I) : immIField (encode inst rd rs1 rs2 imm) = maskI 12 imm := by
  rw [encode_eq_layoutWord]
  have h12 := maskI_lt 12 imm
  simp only [layoutWord, immIField, h]
  omega

theorem f7Field_encode_S (inst : Instruction) (rd rs1 rs2 : Nat) (imm : Int)
    (h : inst.fmt = .S) :
    f7Field (encode inst rd rs1 rs2 imm) = maskI 12 imm / 2 ^ 5 := by
  rw [encode_eq_layoutWord]
  have h12 := maskI_lt 12 imm
  simp only [layoutWord, f7Field, h]
  rw [show maskI 12 imm / 2 ^ 5 * 2 ^ 25 + rs2 % 32 * 2 ^ 20 + rs1 % 32 * 2 ^ 15 +
      inst.funct3.getD 0 % 8 * 2 ^ 12 + maskI 12 imm % 2 ^ 5 * 2 ^ 7 +
      inst.opcode % 128 =
      0 * 2 ^ 32 + maskI 12 imm / 2 ^ 5 * 2 ^ 25 +
        (rs2 % 32 * 2 ^ 20 + rs1 % 32 * 2 ^ 15 + inst.funct3.getD 0 % 8 * 2 ^ 12 +
          maskI 12 imm % 2 ^ 5 * 2 ^ 7 + inst.opcode % 128)
      from by ring,
    extract_field _ _ _ 25 7 32 rfl (by omega) (by omega)]

theorem rdField_encode_S (inst : Instruction) (rd rs1 rs2 : Nat) (imm : Int)
    (h : inst.fmt = .S) :
    rdField (encode inst rd rs1 rs2 imm) = maskI 12 imm % 2 ^ 5 := by
  rw [encode_eq_layoutWord]
  have h12 := maskI_lt 12 imm
  simp only [layoutWord, rdField, h]
  omega

/-! ## The instruction catalog (`RISCVISA._load_instructions`) -/

def iAdd : Instruction := ⟨"add", .R, 0b0110011, some 0b000, some 0b0000000, none⟩
def iSub : Instruction := ⟨"sub", .R, 0b0110011, some 0b000, some 0b0100000, none⟩
def iXor : Instruction := ⟨"xor", .R, 0b0110011, some 0b100, some 0b0000000, none⟩
def iOr : Instruction := ⟨"or", .R, 0b0110011, some 0b110, some 0b0000000, none⟩
def iAnd : Instruction := ⟨"and", .R, 0b0110011, some 0b111, some 0b0000000, none⟩
def iSll : Instruction := ⟨"sll", .R, 0b0110011, some 0b001, some 0b0000000, none⟩
def iSrl : Instruction := ⟨"srl", .R, 0b0110011, some 0b101, some 0b0000000, none⟩
def iSra : Instruction := ⟨"sra", .R, 0b0110011, some 0b101, some 0b0100000, none⟩
def iSlt : Instruction := ⟨"slt", .R, 0b0110011, some 0b010, some 0b0000000, none⟩
def iSltu : Instruction := ⟨"sltu", .R, 0b0110011, some 0b011, some 0b0000000, none⟩
def iAddi : Instruction := ⟨"addi", .I, 0b0010011, some 0b000, none, some .imm12bit⟩
def iXori : Instruction := ⟨"xori", .I, 0b0010011, some 0b100, none, some .imm12bit⟩
def iOri : Instruction := ⟨"ori", .I, 0b0010011, some 0b110, none, some .imm12bit⟩
def iAndi : Instruction := ⟨"andi", .I, 0b0010011, some 0b111, none, some .imm12bit⟩
def iSlli : Instruction := ⟨"slli", .I, 0b0010011, some 0b001, none, some .imm5bit⟩
def iSrli : Instruction := ⟨"srli", .I, 0b0010011, some 0b101, some 0b0000000, some .imm5bit⟩
def iSrai : Instruction := ⟨"srai", .I, 0b0010011, some 0b101, some 0b0100000, some .imm5bit⟩
def iSlti : Instruction := ⟨"slti", .I, 0b0010011, some 0b010, none, some .imm12bit⟩
def iSltiu : Instruction := ⟨"sltiu", .I, 0b0010011, some 0b011, none, some .imm12bit⟩
def iLb : Instruction := ⟨"lb", .I, 0b0000011, some 0b000, none, some .immLoadStore⟩
def iLh : Instruction := ⟨"lh", .I, 0b0000011, some 0b001, none, some .immLoadStore⟩
def iLw : Instruction := ⟨"lw", .I, 0b0000011, some 0b010, none, some .immLoadStore⟩
def iLbu : Instruction := ⟨"lbu", .I, 0b0000011, some 0b100, none, some .immLoadStore⟩
def iLhu : Instruction := ⟨"lhu", .I, 0b0000011, some 0b101, none, some .immLoadStore⟩
def iJalr : Instruction := ⟨"jalr", .I, 0b1100111, some 0b000, none, some .imm12bit⟩
def iSb : Instruction := ⟨"sb", .S, 0b0100011, some 0b000, none, some .immLoadStore⟩
def iSh : Instruction := ⟨"sh", .S, 0b0100011, some 0b001, none, some .immLoadStore⟩
def iSw : Instruction := ⟨"sw", .S, 0b0100011, some 0b010, none, some .immLoadStore⟩
def iBeq : Instruction := ⟨"beq", .B, 0b1100011, some 0b000, none, some .immBranch⟩
def iBne : Instruction := ⟨"bne", .B, 0b1100011, some 0b001, none, some .immBranch⟩
def iBlt : Instruction := ⟨"blt", .B, 0b1100011, some 0b100, none, some .immBranch⟩
def iBge : Instruction := ⟨"bge", .B, 0b1100011, some 0b101, none, some .immBranch⟩
def iBltu : Instruction := ⟨"bltu", .B, 0b1100011, some 0b110, none, some .immBranch⟩
def iBgeu : Instruction := ⟨"bgeu", .B, 0b1100011, some 0b111, none, some .immBranch⟩
def iLui : Instruction := ⟨"lui", .U, 0b0110111, none, none, some .imm20bit⟩
def iAuipc : Instruction := ⟨"auipc", .U, 0b0010111, none, none, some .imm20bit⟩
def iJal : Instruction := ⟨"jal", .J, 0b1101111, none, none, some .immJump⟩
def iEcall : Instruction := ⟨"ecall", .I, 0b1110011, some 0b000, none, none⟩
def iEbreak : Instruction := ⟨"ebreak", .I, 0b1110011, some 0b000, some 0b0000001, none⟩

/-- The full catalog, in the order `_load_instructions` appends. -/
def loadInstructions : List Instruction :=
  [iAdd, iSub, iXor, iOr, iAnd, iSll, iSrl, iSra, iSlt, iSltu,
   iAddi, iXori, iOri, iAndi, iSlli, iSrli, iSrai, iSlti, iSltiu,
   iLb, iLh, iLw, iLbu, iLhu, iJalr,
   iSb, iSh, iSw,
   iBeq, iBne, iBlt, iBge, iBltu, iBgeu,
   iLui, iAuipc,
   iJal,
   iEcall, iEbreak]

/-- C1.  For every instruction definition and all inputs, `encode` masks
each register field to 5 bits and the immediate to its field width and
packs the fields per the declared format layout (the spec-side
`layoutWord`), always yielding a 32-bit word; in particular encoding
`add` with rd=1, rs1=2, rs2=3, imm=0 yields 0x003100B3, and encoding `sw`
with rs1=2, rs2=3, imm=0x44 places imm[11:5]=0b0000010 at bits[31:25] and
imm[4:0]=0b00100 at bits[11:7] (with rs1/rs2/opcode in their fields). -/
theorem c1_encode_packs_fields_per_format :
    (∀ (inst : Instruction) (rd rs1 rs2 : Nat) (imm : Int),
        encode inst rd rs1 rs2 imm = layoutWord inst rd rs1 rs2 imm ∧
        encode inst rd rs1 rs2 imm < 2 ^ 32) ∧
    encode iAdd 1 2 3 0 = 0x003100B3 ∧
    f7Field (encode iSw 0 2 3 0x44) = 0b0000010 ∧
    rdField (encode iSw 0 2 3 0x44) = 0b00100 ∧
    opcField (encode iSw 0 2 3 0x44) = 0b0100011 ∧
    rs1Field (encode iSw 0 2 3 0x44) = 2 ∧
    rs2Field (encode iSw 0 2 3 0x44) = 3 :=
  ⟨fun inst rd rs1 rs2 imm =>
    ⟨encode_eq_layoutWord inst rd rs1 rs2 imm, encode_lt_two_pow_32 inst rd rs1 rs2 imm⟩,
   by decide, by decide, by decide, by decide, by decide, by decide⟩

/-! ## Assembly rendering (`Instruction.assembly`, `riscv_isa.py` 227-256) -/

/-- Python `f"x{r}"`. -/
def regName (r : Nat) : String := "x" ++ toString r

/-- Assembly string rendering, branch for branch from the source.  The
final `unknown_format` arm of the Python chain is unreachable because the
six formats are exhaustive. -/
def assembly (inst : Instruction) (rd rs1 rs2 : Nat) (imm : Int) : String :=
  if inst.name ∈ ["ebreak", "ecall"] then inst.name
  else
    match inst.fmt with
    | .R =>
        inst.name ++ " " ++ regName rd ++ ", " ++ regName rs1 ++ ", " ++ regName rs2
    | .I =>
        if inst.name ∈ ["slli", "srli", "srai"] then
          inst.name ++ " " ++ regName rd ++ ", " ++ regName rs1 ++ ", " ++
            toString (maskI 5 imm)
        else if inst.name ∈ ["lb", "lh", "lw", "lbu", "lhu", "jalr"] then
          inst.name ++ " " ++ regName rd ++ ", " ++ toString imm ++ "(" ++
            regName rs1 ++ ")"
        else
          inst.name ++ " " ++ regName rd ++ ", " ++ regName rs1 ++ ", " ++ toString imm
    | .S =>
        inst.name ++ " " ++ regName rs2 ++ ", " ++ toString imm ++ "(" ++
          regName rs1 ++ ")"
    | .B =>
        inst.name ++ " " ++ regName rs1 ++ ", " ++ regName rs2 ++ ", " ++ toString imm
    | .U => inst.name ++ " " ++ regName rd ++ ", " ++ toString imm
    | .J => inst.name ++ " " ++ regName rd ++ ", " ++ toString imm

/-! ## Register sampling (`Registers.random`, `Registers.random_range`) -/

/-- `Registers.random(exclude_zero)`: one `randint` draw. -/
def registersRandom (excludeZero : Bool) (s : RandStream) : Nat × RandStream :=
  if excludeZero then randNat 1 31 s else randNat 0 31 s

/-- The `while reg == 0` retry loop in `Registers.random_range`, entered
when the first draw produced 0 under `exclude_zero`.  Each iteration is
one `randint` draw; `fuel` bounds how many retries the model can observe,
with `GErr.hung` standing for a run whose every retry drew 0. -/
def randomRangeGo (minReg maxReg : Nat) : Nat → RandStream → Except GErr (Nat × RandStream)
  | 0, _ => .error .hung
  | fuel + 1, s =>
      let (reg, s) := randNat minReg maxReg s
      if reg = 0 then randomRangeGo minReg maxReg fuel s else .ok (reg, s)

/-- `Registers.random_range(min_reg, max_reg, exclude_zero)`: validation,
one draw, then the retry loop.  The Python `min_reg < 0` disjunct of the
first check cannot fire for `Nat`. -/
def randomRange (minReg maxReg : Nat) (excludeZero : Bool) (fuel : Nat)
    (s : RandStream) : Except GErr (Nat × RandStream) :=
  if 31 < maxReg ∨ maxReg < minReg then
    .error (.valueError "Invalid register range. Must be within 0-31.")
  else if excludeZero ∧ minReg = 0 ∧ maxReg = 0 then
    .error (.valueError "Cannot exclude zero register when range is [0, 0].")
  else
    let (reg, s) := randNat minReg maxReg s
    if excludeZero ∧ reg = 0 then randomRangeGo minReg maxReg fuel s
    else .ok (reg, s)

/-! ## The catalog object (`class RISCVISA`) -/

/-- The catalog state built by `RISCVISA.__init__`. -/
structure RISCVISA where
  loadStoreOffsetRanges : List (Int × Int)
  loadStoreOffsetMin : Int
  loadStoreOffsetMax : Int
  rdMin : Nat
  rdMax : Nat
  rs1Min : Nat
  rs1Max : Nat
  rs2Min : Nat
  rs2Max : Nat
  instructions : List Instruction
  weights : String → ℚ

/-- Python `min(...)` over the bases; the empty case raises in Python and
is guarded at the call site. -/
def minBase : List (Int × Int) → Int
  | [] => 0
  | p :: rest => rest.foldl (fun a q => min a q.1) p.1

/-- Python `max(base + size - 1 ...)`; empty case guarded as above. -/
def maxEnd : List (Int × Int) → Int
  | [] => 0
  | p :: rest => rest.foldl (fun a q => max a (q.1 + q.2 - 1)) (p.1 + p.2 - 1)

/-- `RISCVISA._validate_register_range`; the `min_val < 0` disjunct cannot
fire for `Nat`. -/
def validateRegisterRange (regType : String) (minVal maxVal : Nat) :
    Except GErr Unit :=
  if 31 < maxVal then
    .error (.valueError (regType ++ " range must be within 0-31."))
  else if maxVal < minVal then
    .error (.valueError (regType ++ " min > max"))
  else .ok ()

/-- The weight-override loop at the end of `RISCVISA.__init__`: known
names update the table, an unknown name raises. -/
def applyWeightOverrides (names : List String) (base : String → ℚ) :
    List (String × ℚ) → Except GErr (String → ℚ)
  | [] => .ok base
  | (n, w) :: rest =>
      if n ∈ names then
        applyWeightOverrides names (fun m => if m = n then w else base m) rest
      else .error (.valueError ("Unknown instruction " ++ n ++ " in weights"))

/-- `RISCVISA.__init__`: offset-range handling (explicit ranges with
positive sizes, or the single `[min, max]` range), register-range
validation, the fixed catalog, and the weight table defaulting to 1. -/
def mkRISCVISA (weights : Option (List (String × ℚ))) (lsMin lsMax : Int)
    (lsRanges : Option (List (Int × Int)))
    (rdMin rdMax rs1Min rs1Max rs2Min rs2Max : Nat) : Except GErr RISCVISA :=
  match (match lsRanges with
    | some rs =>
        if rs.all (fun p => decide (0 < p.2)) then
          match rs with
          | [] => Except.error (GErr.valueError "min() arg is an empty sequence")
          | p :: rest => Except.ok (p :: rest, minBase (p :: rest), maxEnd (p :: rest))
        else Except.error (GErr.valueError "Range size must be positive")
    | none =>
        if lsMax < lsMin then
          Except.error (GErr.valueError "load_store_offset_min > load_store_offset_max")
        else Except.ok ([(lsMin, lsMax - lsMin + 1)], lsMin, lsMax) :
      Except GErr (List (Int × Int) × Int × Int)) with
  | .error e => .error e
  | .ok (ranges, mn, mx) =>
    match validateRegisterRange "rd" rdMin rdMax with
    | .error e => .error e
    | .ok _ =>
      match validateRegisterRange "rs1" rs1Min rs1Max with
      | .error e => .error e
      | .ok _ =>
        match validateRegisterRange "rs2" rs2Min rs2Max with
        | .error e => .error e
        | .ok _ =>
          match applyWeightOverrides (loadInstructions.map (fun i => i.name))
              (fun _ => 1) (weights.getD []) with
          | .error e => .error e
          | .ok w =>
            .ok { loadStoreOffsetRanges := ranges
                  loadStoreOffsetMin := mn
                  loadStoreOffsetMax := mx
                  rdMin := rdMin, rdMax := rdMax
                  rs1Min := rs1Min, rs1Max := rs1Max
                  rs2Min := rs2Min, rs2Max := rs2Max
                  instructions := loadInstructions
                  weights := w }

/-- The catalog `RISCVISA()` built with all defaults (as `generator.py`
does). -/
def defaultISA : RISCVISA :=
  { loadStoreOffsetRanges := [(-2048, 4096)]
    loadStoreOffsetMin := -2048
    loadStoreOffsetMax := 2047
    rdMin := 0, rdMax := 31
    rs1Min := 0, rs1Max := 31
    rs2Min := 0, rs2Max := 31
    instructions := loadInstructions
    weights := fun _ => 1 }

theorem mkRISCVISA_default :
    mkRISCVISA none (-2048) 2047 none 0 31 0 31 0 31 = .ok defaultISA := rfl

/-- `RISCVISA.generate_load_store_offset`: pick a range uniformly, then an
offset uniformly within it. -/
def generateLoadStoreOffset (isa : RISCVISA) (s : RandStream) : Int × RandStream :=
  let (p, s) := choiceD isa.loadStoreOffsetRanges (0, 1) s
  randInt p.1 (p.1 + p.2 - 1) s

/-- Run one of the catalog's immediate generators (the closures installed
by `_load_instructions`).  `x & ~1` on an integer clears bit 0, i.e.
floors to the even below. -/
def runImmFn (isa : RISCVISA) (fn : ImmFn) (s : RandStream) : Int × RandStream :=
  match fn with
  | .imm12bit => randInt (-2048) 2047 s
  | .imm5bit => randInt 0 31 s
  | .immLoadStore => generateLoadStoreOffset isa s
  | .immBranch =>
      let (v, s) := randInt (-4096) 4094 s
      (2 * (v / 2), s)
  | .imm20bit => randInt (-524288) 524287 s
  | .immJump =>
      let (v, s) := randInt (-1048576) 1048574 s
      (2 * (v / 2), s)

/-- `RISCVISA.get_random_rd`. -/
def getRandomRd (isa : RISCVISA) (excludeZero : Bool) (fuel : Nat) (s : RandStream) :
    Except GErr (Nat × RandStream) :=
  randomRange isa.rdMin isa.rdMax excludeZero fuel s

/-- `RISCVISA.get_random_rs1`. -/
def getRandomRs1 (isa : RISCVISA) (excludeZero : Bool) (fuel : Nat) (s : RandStream) :
    Except GErr (Nat × RandStream) :=
  randomRange isa.rs1Min isa.rs1Max excludeZero fuel s

/-- `RISCVISA.get_random_rs2`. -/
def getRandomRs2 (isa : RISCVISA) (excludeZero : Bool) (fuel : Nat) (s : RandStream) :
    Except GErr (Nat × RandStream) :=
  randomRange isa.rs2Min isa.rs2Max excludeZero fuel s

/-- Python `random.choices(items, weights)[0]` (one draw): raises when the
total weight is not positive, otherwise picks among the items of positive
weight (zero-weight items can never be selected). -/
def choicesWeighted {α : Type} (items : List α) (ws : List ℚ) (dflt : α)
    (s : RandStream) : Except GErr (α × RandStream) :=
  if ws.sum ≤ 0 then
    .error (.valueError "Total of weights must be greater than zero")
  else
    let pos := ((items.zip ws).filter (fun p => decide (0 < p.2))).map (fun p => p.1)
    let (n, s) := drawNat s
    .ok (pos.getD (n % pos.length) dflt, s)

/-- The total of all current weights over the catalog. -/
def totalWeight (isa : RISCVISA) : ℚ :=
  (isa.instructions.map (fun i => isa.weights i.name)).sum

/-- `RISCVISA.get_random_instruction`: weighted selection over the whole
catalog. -/
def getRandomInstruction (isa : RISCVISA) (s : RandStream) :
    Except GErr (Instruction × RandStream) :=
  choicesWeighted isa.instructions (isa.instructions.map (fun i => isa.weights i.name))
    iAdd s

/-- `RISCVISA.get_weighted_random_from_list`: explicit empty-list check,
then weighted selection over the subset. -/
def getWeightedRandomFromList (isa : RISCVISA) (l : List Instruction)
    (s : RandStream) : Except GErr (Instruction × RandStream) :=
  if l = [] then .error (.valueError "Instruction list cannot be empty")
  else choicesWeighted l (l.map (fun i => isa.weights i.name)) iAdd s

/-- `Instruction.generate_with_registers` (`riscv_isa.py` 181-225): fill
missing fields randomly, then force fields according to the instruction
(ebreak/ecall: everything 0; R: imm 0; U/J: rs1/rs2 0; I: rs2 0; S/B:
rd 0), then encode and render.  The immediate generator closure captures
the owning catalog, hence the `isa` parameter. -/
def generateWithRegisters (isa : RISCVISA) (inst : Instruction)
    (ordd ors1 ors2 : Option Nat) (oimm : Option Int) (s : RandStream) :
    (Nat × String) × RandStream :=
  let (rd, s) := match ordd with
    | some v => (v, s)
    | none => registersRandom false s
  let (rs1, s) := match ors1 with
    | some v => (v, s)
    | none => registersRandom false s
  let (rs2, s) := match ors2 with
    | some v => (v, s)
    | none => registersRandom false s
  let (imm, s) := match oimm with
    | some v => (v, s)
    | none =>
        match inst.immGen with
        | some fn => runImmFn isa fn s
        | none => ((0 : Int), s)
  let (rd, rs1, rs2, imm) :=
    if inst.name ∈ ["ebreak", "ecall"] then (0, 0, 0, (0 : Int))
    else if inst.fmt = .R then (rd, rs1, rs2, 0)
    else if inst.fmt = .U ∨ inst.fmt = .J then (rd, 0, 0, imm)
    else if inst.fmt = .I then (rd, rs1, 0, imm)
    else if inst.fmt = .S ∨ inst.fmt = .B then (0, rs1, rs2, imm)
    else (rd, rs1, rs2, imm)
  ((encode inst rd rs1 rs2 imm, assembly inst rd rs1 rs2 imm), s)

/-- `RISCVISA.generate_random_instruction`: draw registers from the
configured ranges (no zero exclusion, so the retry loop is unreachable
and the fuel is irrelevant), then delegate. -/
def generateRandomInstruction (isa : RISCVISA) (oinstr : Option Instruction)
    (s : RandStream) : Except GErr ((Nat × String) × RandStream) :=
  match (match oinstr with
    | some i => Except.ok (i, s)
    | none => getRandomInstruction isa s) with
  | .error e => .error e
  | .ok (instr, s) =>
    match getRandomRd isa false 0 s with
    | .error e => .error e
    | .ok (rd, s) =>
      match getRandomRs1 isa false 0 s with
      | .error e => .error e
      | .ok (rs1, s) =>
        match getRandomRs2 isa false 0 s with
        | .error e => .error e
        | .ok (rs2, s) =>
          .ok (generateWithRegisters isa instr (some rd) (some rs1) (some rs2) none s)

/-- `RISCVISA.generate_random(count)`: the bounded generation loop. -/
def generateRandomN (isa : RISCVISA) : Nat → RandStream →
    Except GErr (List (Nat × String) × RandStream)
  | 0, s => .ok ([], s)
  | n + 1, s =>
      match getRandomInstruction isa s with
      | .error e => .error e
      | .ok (instr, s) =>
        match generateRandomInstruction isa (some instr) s with
        | .error e => .error e
        | .ok (pair, s) =>
          match generateRandomN isa n s with
          | .error e => .error e
          | .ok (rest, s) => .ok (pair :: rest, s)

/-- `generator.generate_instructions(count, fmt, seed)`: seed the global
stream, build the default catalog, generate.  Seeding is fixing the
stream, so the stream argument stands for the seed. -/
def generateInstructions (count : Nat) (s : RandStream) :
    Except GErr (List (Nat × String) × RandStream) :=
  match mkRISCVISA none (-2048) 2047 none 0 31 0 31 0 31 with
  | .error e => .error e
  | .ok isa => generateRandomN isa count s

/-- C10.  `generate_with_registers` overrides caller-supplied fields per
instruction: ebreak/ecall force rd=rs1=rs2=imm=0; R-type forces imm=0;
U/J-type force rs1=rs2=0; I-type forces rs2=0; S/B-type force rd=0 — even
when the caller passed explicit different values, and the returned word
and assembly string are computed from the forced values. -/
theorem c10_generate_with_registers_forces_fields :
    (∀ (isa : RISCVISA) (inst : Instruction) (rd rs1 rs2 : Nat) (imm : Int)
        (s : RandStream), inst.name ∈ ["ebreak", "ecall"] →
      generateWithRegisters isa inst (some rd) (some rs1) (some rs2) (some imm) s =
        ((encode inst 0 0 0 0, assembly inst 0 0 0 0), s)) ∧
    (∀ (isa : RISCVISA) (inst : Instruction) (rd rs1 rs2 : Nat) (imm : Int)
        (s : RandStream), inst.name ∉ ["ebreak", "ecall"] → inst.fmt = .R →
      generateWithRegisters isa inst (some rd) (some rs1) (some rs2) (some imm) s =
        ((encode inst rd rs1 rs2 0, assembly inst rd rs1 rs2 0), s)) ∧
    (∀ (isa : RISCVISA) (inst : Instruction) (rd rs1 rs2 : Nat) (imm : Int)
        (s : RandStream), inst.name ∉ ["ebreak", "ecall"] →
      inst.fmt = .U ∨ inst.fmt = .J →
      generateWithRegisters isa inst (some rd) (some rs1) (some rs2) (some imm) s =
        ((encode inst rd 0 0 imm, assembly inst rd 0 0 imm), s)) ∧
    (∀ (isa : RISCVISA) (inst : Instruction) (rd rs1 rs2 : Nat) (imm : Int)
        (s : RandStream), inst.name ∉ ["ebreak", "ecall"] → inst.fmt = .I →
      generateWithRegisters isa inst (some rd) (some rs1) (some rs2) (some imm) s =
        ((encode inst rd rs1 0 imm, assembly inst rd rs1 0 imm), s)) ∧
    (∀ (isa : RISCVISA) (inst : Instruction) (rd rs1 rs2 : Nat) (imm : Int)
        (s : RandStream), inst.name ∉ ["ebreak", "ecall"] →
      inst.fmt = .S ∨ inst.fmt = .B →
      generateWithRegisters isa inst (some rd) (some rs1) (some rs2) (some imm) s =
        ((encode inst 0 rs1 rs2 imm, assembly inst 0 rs1 rs2 imm), s)) := by
  refine ⟨?_, ?_, ?_, ?_, ?_⟩
  · intro isa inst rd rs1 rs2 imm s h
    simp only [generateWithRegisters]
    rw [if_pos h]
  · intro isa inst rd rs1 rs2 imm s hn hf
    simp only [generateWithRegisters]
    rw [if_neg hn, if_pos hf]
  · intro isa inst rd rs1 rs2 imm s hn hf
    have hr : ¬inst.fmt = .R := by rcases hf with h | h <;> simp [h]
    simp only [generateWithRegisters]
    rw [if_neg hn, if_neg hr, if_pos hf]
  · intro isa inst rd rs1 rs2 imm s hn hf
    have hr : ¬inst.fmt = .R := by simp [hf]
    have huj : ¬(inst.fmt = .U ∨ inst.fmt = .J) := by simp [hf]
    simp only [generateWithRegisters]
    rw [if_neg hn, if_neg hr, if_neg huj, if_pos hf]
  · intro isa inst rd rs1 rs2 imm s hn hf
    have hr : ¬inst.fmt = .R := by rcases hf with h | h <;> simp [h]
    have huj : ¬(inst.fmt = .U ∨ inst.fmt = .J) := by
      rcases hf with h | h <;> simp [h]
    have hi : ¬inst.fmt = .I := by rcases hf with h | h <;> simp [h]
    simp only [generateWithRegisters]
    rw [if_neg hn, if_neg hr, if_neg huj, if_neg hi, if_pos hf]

theorem c10_witness :
    generateWithRegisters defaultISA iEbreak (some 7) (some 8) (some 9) (some 5)
        (streamOf []) =
      ((encode iEbreak 0 0 0 0, assembly iEbreak 0 0 0 0), streamOf []) ∧
    generateWithRegisters defaultISA iAdd (some 7) (some 8) (some 9) (some 5)
        (streamOf []) =
      ((encode iAdd 7 8 9 0, assembly iAdd 7 8 9 0), streamOf []) ∧
    generateWithRegisters defaultISA iLui (some 7) (some 8) (some 9) (some 5)
        (streamOf []) =
      ((encode iLui 7 0 0 5, assembly iLui 7 0 0 5), streamOf []) ∧
    generateWithRegisters defaultISA iAddi (some 7) (some 8) (some 9) (some 5)
        (streamOf []) =
      ((encode iAddi 7 8 0 5, assembly iAddi 7 8 0 5), streamOf []) ∧
    generateWithRegisters defaultISA iSw (some 7) (some 8) (some 9) (some 5)
        (streamOf []) =
      ((encode iSw 0 8 9 5, assembly iSw 0 8 9 5), streamOf []) :=
  ⟨c10_generate_with_registers_forces_fields.1 defaultISA iEbreak 7 8 9 5 _ (by decide),
   c10_generate_with_registers_forces_fields.2.1 defaultISA iAdd 7 8 9 5 _ (by decide)
     (by decide),
   c10_generate_with_registers_forces_fields.2.2.1 defaultISA iLui 7 8 9 5 _ (by decide)
     (Or.inl (by decide)),
   c10_generate_with_registers_forces_fields.2.2.2.1 defaultISA iAddi 7 8 9 5 _
     (by decide) (by decide),
   c10_generate_with_registers_forces_fields.2.2.2.2 defaultISA iSw 7 8 9 5 _
     (by decide) (Or.inl (by decide))⟩

/-- C4.  The generation pipeline is a pure function of the seed (modelled
as the draw stream) and the configuration: equal seeds and equal
configurations give identical outputs, for `generate_instructions` and
for catalog-level generation. -/
theorem c4_same_seed_byte_identical :
    (∀ (count₁ count₂ : Nat) (s₁ s₂ : RandStream), count₁ = count₂ → s₁ = s₂ →
      generateInstructions count₁ s₁ = generateInstructions count₂ s₂) ∧
    (∀ (isa₁ isa₂ : RISCVISA) (count₁ count₂ : Nat) (s₁ s₂ : RandStream),
      isa₁ = isa₂ → count₁ = count₂ → s₁ = s₂ →
      generateRandomN isa₁ count₁ s₁ = generateRandomN isa₂ count₂ s₂) := by
  constructor
  · intro c1 c2 s1 s2 hc hs
    rw [hc, hs]
  · intro i1 i2 c1 c2 s1 s2 hi hc hs
    rw [hi, hc, hs]

theorem c4_witness :
    generateInstructions 5 (streamOf [1, 2, 3]) =
      generateInstructions 5 (streamOf [1, 2, 3]) ∧
    generateRandomN defaultISA 2 (streamOf []) =
      generateRandomN defaultISA 2 (streamOf []) :=
  ⟨c4_same_seed_byte_identical.1 5 5 (streamOf [1, 2, 3]) (streamOf [1, 2, 3]) rfl rfl,
   c4_same_seed_byte_identical.2 defaultISA defaultISA 2 2 (streamOf []) (streamOf [])
     rfl rfl rfl⟩

theorem randomRangeGo_ok (lo hi : Nat) (hle : lo ≤ hi) :
    ∀ (fuel : Nat) (s : RandStream) (r : Nat) (s' : RandStream),
      randomRangeGo lo hi fuel s = .ok (r, s') → r ≠ 0 ∧ lo ≤ r ∧ r ≤ hi := by
  intro fuel
  induction fuel with
  | zero =>
      intro s r s' h
      simp [randomRangeGo] at h
  | succ n ih =>
      intro s r s' h
      simp only [randomRangeGo, randNat, drawNat] at h
      split at h
      · exact ih _ _ _ h
      · rename_i hreg
        have hmod : s 0 % (hi + 1 - lo) < hi + 1 - lo := Nat.mod_lt _ (by omega)
        simp only [Except.ok.injEq, Prod.mk.injEq] at h
        obtain ⟨h1, _⟩ := h
        omega

theorem randomRangeGo_exists (lo hi : Nat) :
    ∀ (fuel : Nat) (s : RandStream),
      (∃ i, i < fuel ∧ lo + s i % (hi + 1 - lo) ≠ 0) →
      ∃ r s', randomRangeGo lo hi fuel s = .ok (r, s') := by
  intro fuel
  induction fuel with
  | zero =>
      rintro s ⟨i, hi0, _⟩
      omega
  | succ n ih =>
      rintro s ⟨i, hilt, hine⟩
      simp only [randomRangeGo, randNat, drawNat]
      split
      · rename_i h0
        apply ih s.tail
        have hipos : i ≠ 0 := by
          intro h
          subst h
          exact hine h0
        refine ⟨i - 1, by omega, ?_⟩
        show lo + s.tail (i - 1) % (hi + 1 - lo) ≠ 0
        have : s.tail (i - 1) = s i := by
          show s (i - 1 + 1) = s i
          congr 1
          omega
        rw [this]
        exact hine
      · exact ⟨_, _, rfl⟩

/-- C6 (amended).  The `{0}`-with-exclude-zero configuration is accepted
at catalog construction time and rejected with a `ValueError` inside
`random_range` at sampling time, before the retry loop can run; for any
valid range, sampling with exclude-zero never returns 0 and stays in
range, and it does return whenever some draw within the fuel maps to a
non-zero register. -/
theorem c6_exclude_zero_no_infinite_loop :
    (mkRISCVISA none (-2048) 2047 none 0 0 0 31 0 31).isOk = true ∧
    (∀ (fuel : Nat) (s : RandStream),
      randomRange 0 0 true fuel s =
        .error (.valueError "Cannot exclude zero register when range is [0, 0].")) ∧
    (∀ (lo hi fuel : Nat) (s : RandStream) (r : Nat) (s' : RandStream),
      lo ≤ hi → hi ≤ 31 →
      randomRange lo hi true fuel s = .ok (r, s') → r ≠ 0 ∧ lo ≤ r ∧ r ≤ hi) ∧
    (∀ (lo hi fuel : Nat) (s : RandStream), lo ≤ hi → hi ≤ 31 → 0 < hi →
      (∃ i, i ≤ fuel ∧ lo + s i % (hi + 1 - lo) ≠ 0) →
      ∃ r s', randomRange lo hi true fuel s = .ok (r, s')) := by
  refine ⟨rfl, ?_, ?_, ?_⟩
  · intro fuel s
    rfl
  · intro lo hi fuel s r s' hle h31 h
    simp only [randomRange, randNat, drawNat] at h
    rw [if_neg (by omega : ¬(31 < hi ∨ hi < lo))] at h
    split at h
    · simp at h
    · split at h
      · exact randomRangeGo_ok lo hi hle fuel _ _ _ h
      · rename_i hcond
        have hmod : s 0 % (hi + 1 - lo) < hi + 1 - lo := Nat.mod_lt _ (by omega)
        simp only [Except.ok.injEq, Prod.mk.injEq] at h
        obtain ⟨h1, _⟩ := h
        simp only [not_and] at hcond
        have : ¬(lo + s 0 % (hi + 1 - lo) = 0) := fun hc => hcond trivial hc
        omega
  · intro lo hi fuel s hle h31 hpos ⟨i, hif, hine⟩
    simp only [randomRange, randNat, drawNat]
    rw [if_neg (by omega : ¬(31 < hi ∨ hi < lo)),
      if_neg (show ¬(True ∧ lo = 0 ∧ hi = 0) by rintro ⟨_, _, h0⟩; omega)]
    split
    · rename_i h0
      obtain ⟨_, h0⟩ := h0
      apply randomRangeGo_exists lo hi fuel s.tail
      have hipos : i ≠ 0 := by
        intro h
        subst h
        exact hine h0
      refine ⟨i - 1, by omega, ?_⟩
      show lo + s.tail (i - 1) % (hi + 1 - lo) ≠ 0
      have : s.tail (i - 1) = s i := by
        show s (i - 1 + 1) = s i
        congr 1
        omega
      rw [this]
      exact hine
    · exact ⟨_, _, rfl⟩

theorem c6_counterexample :
    (mkRISCVISA none (-2048) 2047 none 0 0 0 31 0 31).isOk = true ∧
    randomRange 0 0 true 5 (streamOf []) =
      .error (.valueError "Cannot exclude zero register when range is [0, 0].") :=
  ⟨rfl, rfl⟩

theorem c6_witness : 5 ≠ 0 ∧ 0 ≤ 5 ∧ 5 ≤ 31 :=
  c6_exclude_zero_no_infinite_loop.2.2.1 0 31 1 (streamOf [0, 5]) 5
    ((streamOf [0, 5]).tail.tail) (by omega) (by omega) rfl

/-- An all-zero weight table over the default catalog. -/
def zeroWeightISA : RISCVISA :=
  { defaultISA with weights := fun _ => 0 }

theorem totalWeight_zeroWeightISA : totalWeight zeroWeightISA = 0 := by
  simp [totalWeight, zeroWeightISA, loadInstructions]

/-- C7.  Weighted sampling fails loudly: `get_random_instruction` raises
when the total of the current weights is zero (the `random.choices`
`ValueError`), and `get_weighted_random_from_list` raises on an empty
subset. -/
theorem c7_weighted_sampling_fails_loudly :
    (∀ (isa : RISCVISA) (s : RandStream), totalWeight isa = 0 →
      getRandomInstruction isa s =
        .error (.valueError "Total of weights must be greater than zero")) ∧
    (∀ (isa : RISCVISA) (s : RandStream),
      getWeightedRandomFromList isa [] s =
        .error (.valueError "Instruction list cannot be empty")) := by
  constructor
  · intro isa s h
    unfold totalWeight at h
    unfold getRandomInstruction choicesWeighted
    rw [if_pos (le_of_eq h)]
  · intro isa s
    rfl

theorem c7_witness :
    getRandomInstruction zeroWeightISA (streamOf []) =
      .error (.valueError "Total of weights must be greater than zero") :=
  c7_weighted_sampling_fails_loudly.1 zeroWeightISA (streamOf []) totalWeight_zeroWeightISA

/-! ## Semantic state tracker (`patterns.py`, class `SemanticState`).
Python dicts become association lists preserving insertion order. -/

/-- Association-list lookup (Python `d.get(k)`). -/
def lookupA {β : Type} (l : List (Nat × β)) (k : Nat) : Option β :=
  (l.find? (fun p => p.1 == k)).map (fun p => p.2)

/-- Association-list store (Python `d[k] = v`): replace in place, or
append preserving insertion order. -/
def updateA {β : Type} (l : List (Nat × β)) (k : Nat) (v : β) : List (Nat × β) :=
  if l.any (fun p => p.1 == k) then l.map (fun p => if p.1 == k then (k, v) else p)
  else l ++ [(k, v)]

structure SemanticState where
  registerWriters : List (Nat × Nat)
  registerReaders : List (Nat × List Nat)
  memoryAccesses : List (Nat × List (Int × Nat))
  loopNesting : Nat
  currentLoopCounterReg : Option Nat
  branchTargets : List (Nat × Int)
  inFunction : Bool
  stackPointerOffset : Int
  savedRegisters : List Nat
deriving DecidableEq, Repr

def emptySemanticState : SemanticState :=
  { registerWriters := [], registerReaders := [], memoryAccesses := []
    loopNesting := 0, currentLoopCounterReg := none, branchTargets := []
    inFunction := false, stackPointerOffset := 0, savedRegisters := [] }

/-- `SemanticState.update_register_write`. -/
def updateRegisterWrite (st : SemanticState) (reg idx : Nat) : SemanticState :=
  { st with
    registerWriters := updateA st.registerWriters reg idx
    registerReaders :=
      if (lookupA st.registerReaders reg).isNone then st.registerReaders ++ [(reg, [])]
      else st.registerReaders }

/-- `SemanticState.update_register_read`. -/
def updateRegisterRead (st : SemanticState) (reg idx : Nat) : SemanticState :=
  { st with
    registerReaders :=
      updateA st.registerReaders reg ((lookupA st.registerReaders reg).getD [] ++ [idx]) }

/-- `SemanticState.update_memory_access`. -/
def updateMemoryAccess (st : SemanticState) (baseReg : Nat) (offset : Int)
    (idx : Nat) : SemanticState :=
  { st with
    memoryAccesses :=
      updateA st.memoryAccesses baseReg
        ((lookupA st.memoryAccesses baseReg).getD [] ++ [(offset, idx)]) }

def getLastWriter (st : SemanticState) (reg : Nat) : Option Nat :=
  lookupA st.registerWriters reg

def getReaders (st : SemanticState) (reg : Nat) : List Nat :=
  (lookupA st.registerReaders reg).getD []

def getMemoryAccessPattern (st : SemanticState) (baseReg : Nat) : List (Int × Nat) :=
  (lookupA st.memoryAccesses baseReg).getD []

def isInLoop (st : SemanticState) : Bool := 0 < st.loopNesting

/-! ## Comment generator (`patterns.py`, class `CommentGenerator`) -/

structure CommentGenerator where
  detailLevel : String
deriving DecidableEq, Repr

/-- `CommentGenerator.__init__`: normalize the detail level. -/
def mkCommentGenerator (detailLevel : String) : CommentGenerator :=
  let d := detailLevel.toLower
  ⟨if d ∈ ["none", "minimal", "medium", "detailed"] then d else "medium"⟩

/-- Python `format(x, '#x')` for a possibly negative integer. -/
def pyHex (x : Int) : String :=
  if x < 0 then "-0x" ++ String.mk (Nat.toDigits 16 (-x).toNat)
  else "0x" ++ String.mk (Nat.toDigits 16 x.toNat)

/-- `CommentGenerator.generate`: assemble the comment fragments for one
instruction.  The semantic state is passed in by the pattern generator,
which aliases the one tracker between itself and its comment generator. -/
def commentGenerate (cg : CommentGenerator) (ost : Option SemanticState)
    (instr : Instruction) (rd rs1 rs2 : Nat) (imm : Int) (instrIdx : Nat) :
    Option String :=
  match ost with
  | none => none
  | some st =>
    if cg.detailLevel = "none" then none
    else
      let comments : List String := []
      let comments :=
        if rd ≠ 0 then
          match getLastWriter st rd with
          | some lastWriter =>
              if cg.detailLevel = "minimal" then
                comments ++ ["[REG_WRITE " ++ toString rd ++ "]"]
              else if cg.detailLevel = "medium" then
                comments ++ ["reg x" ++ toString rd ++ " written"]
              else
                comments ++ ["register x" ++ toString rd ++
                  " previously written at instruction " ++ toString lastWriter]
          | none => comments
        else comments
      let comments :=
        if rs1 ≠ 0 then
          if cg.detailLevel = "minimal" then
            comments ++ ["[REG_READ " ++ toString rs1 ++ "]"]
          else if cg.detailLevel = "medium" then
            comments ++ ["reads x" ++ toString rs1]
          else
            comments ++ ["reads register x" ++ toString rs1 ++ " (read " ++
              toString (getReaders st rs1).length ++ " times previously)"]
        else comments
      let comments :=
        if rs2 ≠ 0 then
          if cg.detailLevel = "minimal" then
            comments ++ ["[REG_READ " ++ toString rs2 ++ "]"]
          else if cg.detailLevel = "medium" then
            comments ++ ["reads x" ++ toString rs2]
          else
            comments ++ ["reads register x" ++ toString rs2 ++ " (read " ++
              toString (getReaders st rs2).length ++ " times previously)"]
        else comments
      let comments :=
        if instr.name ∈ ["lb", "lh", "lw", "lbu", "lhu"] then
          if cg.detailLevel = "minimal" then comments ++ ["[LOAD]"]
          else if cg.detailLevel = "medium" then
            comments ++ ["load from x" ++ toString rs1 ++ "+" ++ toString imm]
          else
            comments ++ ["load from address x" ++ toString rs1 ++ "+" ++ toString imm ++
              " (" ++ toString (getMemoryAccessPattern st rs1).length ++
              " previous accesses to this base)"]
        else if instr.name ∈ ["sb", "sh", "sw"] then
          if cg.detailLevel = "minimal" then comments ++ ["[STORE]"]
          else if cg.detailLevel = "medium" then
            comments ++ ["store to x" ++ toString rs1 ++ "+" ++ toString imm]
          else
            comments ++ ["store to address x" ++ toString rs1 ++ "+" ++ toString imm ++
              " (" ++ toString (getMemoryAccessPattern st rs1).length ++
              " previous accesses to this base)"]
        else comments
      let comments :=
        if instr.fmt = .B then
          if cg.detailLevel = "minimal" then comments ++ ["[BRANCH]"]
          else if cg.detailLevel = "medium" then
            comments ++ ["branch target PC" ++ (if 0 ≤ imm then "+" else "") ++
              toString imm]
          else
            comments ++ ["branch to PC " ++ pyHex (instrIdx * 4 + imm) ++ " (offset " ++
              toString imm ++ ")"]
        else if instr.fmt = .J then
          if cg.detailLevel = "minimal" then comments ++ ["[JUMP]"]
          else if cg.detailLevel = "medium" then
            comments ++ ["jump target PC" ++ (if 0 ≤ imm then "+" else "") ++
              toString imm]
          else
            comments ++ ["jump to PC " ++ pyHex (instrIdx * 4 + imm) ++ " (offset " ++
              toString imm ++ ")"]
        else comments
      let comments :=
        if isInLoop st then
          match st.currentLoopCounterReg with
          | some counterReg =>
              if rd = counterReg ∨ rs1 = counterReg ∨ rs2 = counterReg then
                if cg.detailLevel = "minimal" then comments ++ ["[LOOP_CTR]"]
                else if cg.detailLevel = "medium" then
                  comments ++ ["loop counter x" ++ toString counterReg]
                else
                  comments ++ ["uses loop counter register x" ++ toString counterReg]
              else comments
          | none => comments
        else comments
      let comments :=
        if st.inFunction then
          if cg.detailLevel = "minimal" then comments ++ ["[FUNC]"]
          else if cg.detailLevel = "medium" then comments ++ ["in function"]
          else
            comments ++ ["function context, stack offset " ++
              toString st.stackPointerOffset]
        else comments
      if comments = [] then none
      else if cg.detailLevel = "minimal" then some (String.intercalate " " comments)
      else if cg.detailLevel = "medium" then some (String.intercalate "; " comments)
      else some (String.intercalate " | " comments)

/-! ## Pattern generator (`patterns.py`, class `PatternGenerator`) -/

/-- The mutable attributes of a `PatternGenerator`: the (aliased) semantic
state, the comment generator, and the running instruction index. -/
structure PGState where
  semanticState : Option SemanticState
  commentGen : Option CommentGenerator
  instrIdx : Nat
deriving DecidableEq, Repr

/-- `PatternGenerator.__init__`: auto-create a comment generator when a
semantic state is attached but no generator was supplied. -/
def mkPatternGenerator (semanticState : Option SemanticState)
    (commentGen : Option CommentGenerator) (commentDetail : String) : PGState :=
  let cg := match commentGen, semanticState with
    | none, some _ => some (mkCommentGenerator commentDetail)
    | cg, _ => cg
  { semanticState := semanticState, commentGen := cg, instrIdx := 0 }

/-- `PatternGenerator._record_instruction`: no-op without a tracker,
otherwise record writes/reads/memory accesses and advance the index. -/
def recordInstruction (pg : PGState) (instr : Instruction) (rd rs1 rs2 : Nat)
    (imm : Int) : PGState :=
  match pg.semanticState with
  | none => pg
  | some st =>
    let st := if rd ≠ 0 then updateRegisterWrite st rd pg.instrIdx else st
    let st := if rs1 ≠ 0 then updateRegisterRead st rs1 pg.instrIdx else st
    let st := if rs2 ≠ 0 then updateRegisterRead st rs2 pg.instrIdx else st
    let st :=
      if instr.name ∈ ["lb", "lh", "lw", "lbu", "lhu", "sb", "sh", "sw"] then
        updateMemoryAccess st rs1 imm pg.instrIdx
      else st
    { pg with semanticState := some st, instrIdx := pg.instrIdx + 1 }

/-- `PatternGenerator._generate_comment` (uses the current index; callers
record first, so the comment sees the post-increment index as in the
source). -/
def generateComment (pg : PGState) (instr : Instruction) (rd rs1 rs2 : Nat)
    (imm : Int) : Option String :=
  match pg.commentGen with
  | none => none
  | some cg => commentGenerate cg pg.semanticState instr rd rs1 rs2 imm pg.instrIdx

/-- `PatternGenerator._get_immediate`: the instruction's generator if
present, else the per-format fallback. -/
def getImmediate (isa : RISCVISA) (instr : Instruction) (s : RandStream) :
    Int × RandStream :=
  match instr.immGen with
  | some fn => runImmFn isa fn s
  | none =>
    match instr.fmt with
    | .R => (0, s)
    | .I => randInt (-2048) 2047 s
    | .S => randInt (-2048) 2047 s
    | .B =>
        let (v, s) := randInt (-4096) 4094 s
        (2 * (v / 2), s)
    | .U => randInt (-524288) 524287 s
    | .J =>
        let (v, s) := randInt (-1048576) 1048574 s
        (2 * (v / 2), s)

/-- `PatternGenerator._generate_single_random_instruction`. -/
def generateSingleRandomInstruction (isa : RISCVISA) (pg : PGState)
    (oinstr : Option Instruction) (s : RandStream) :
    Except GErr ((Nat × String) × PGState × RandStream) :=
  match (match oinstr with
    | some i => Except.ok (i, s)
    | none => getRandomInstruction isa s) with
  | .error e => .error e
  | .ok (instr, s) =>
    let (rd, s) := registersRandom false s
    let (rs1, s) := registersRandom false s
    let (rs2, s) := registersRandom false s
    let imm : Int := 0
    let (rd, rs1, rs2, imm, s) :=
      if instr.name ∈ ["ebreak", "ecall"] then (0, 0, 0, (0 : Int), s)
      else if instr.fmt = .R then (rd, rs1, rs2, 0, s)
      else if instr.fmt = .U ∨ instr.fmt = .J then
        let (imm, s) := getImmediate isa instr s
        (rd, 0, 0, imm, s)
      else if instr.fmt = .I then
        let (imm, s) := getImmediate isa instr s
        (rd, rs1, 0, imm, s)
      else if instr.fmt = .S ∨ instr.fmt = .B then
        let (imm, s) := getImmediate isa instr s
        (0, rs1, rs2, imm, s)
      else (rd, rs1, rs2, imm, s)
    let encoded := encode instr rd rs1 rs2 imm
    let asm := assembly instr rd rs1 rs2 imm
    let pg := recordInstruction pg instr rd rs1 rs2 imm
    let asm := match generateComment pg instr rd rs1 rs2 imm with
      | some c => asm ++ "  # " ++ c
      | none => asm
    .ok ((encoded, asm), pg, s)

/-- `PatternGenerator.generate_random_sequence`. -/
def generateRandomSequence (isa : RISCVISA) : PGState → Nat → RandStream →
    Except GErr (List (Nat × String) × PGState × RandStream)
  | pg, 0, s => .ok ([], pg, s)
  | pg, n + 1, s =>
      match generateSingleRandomInstruction isa pg none s with
      | .error e => .error e
      | .ok (pair, pg, s) =>
        match generateRandomSequence isa pg n s with
        | .error e => .error e
        | .ok (rest, pg, s) => .ok (pair :: rest, pg, s)

/-- `PatternGenerator.generate_load_store_pair` (`patterns.py` 337-388).
Note the source draws both offsets with `randint(offset_min, offset_max)`
over the overall min/max, not with `generate_load_store_offset`. -/
def generateLoadStorePair (isa : RISCVISA) (pg : PGState) (s : RandStream) :
    Except GErr (List (Nat × String) × PGState × RandStream) :=
  let loadInstrs := isa.instructions.filter
    (fun i => i.name ∈ ["lw", "lh", "lb", "lhu", "lbu"])
  let loadInstrs :=
    if loadInstrs = [] then isa.instructions.filter (fun i => i.fmt = .I)
    else loadInstrs
  let storeInstrs := isa.instructions.filter (fun i => i.name ∈ ["sw", "sh", "sb"])
  let storeInstrs :=
    if storeInstrs = [] then isa.instructions.filter (fun i => i.fmt = .S)
    else storeInstrs
  if loadInstrs = [] ∨ storeInstrs = [] then generateRandomSequence isa pg 2 s
  else
    let (load, s) := choiceD loadInstrs iAdd s
    let (store, s) := choiceD storeInstrs iAdd s
    let (rd, s) := registersRandom true s
    let (rs1, s) := registersRandom true s
    let rs2 := rd
    let (storeRs1, s) := registersRandom true s
    let offsetMin := isa.loadStoreOffsetMin
    let offsetMax := isa.loadStoreOffsetMax
    let (loadImm, s) := randInt offsetMin offsetMax s
    let (storeImm, s) := randInt offsetMin offsetMax s
    let loadEncoded := encode load rd rs1 0 loadImm
    let loadAsm := assembly load rd rs1 0 loadImm
    let pg := recordInstruction pg load rd rs1 0 loadImm
    let loadAsm := match generateComment pg load rd rs1 0 loadImm with
      | some c => loadAsm ++ "  # " ++ c
      | none => loadAsm
    let storeEncoded := encode store 0 storeRs1 rs2 storeImm
    let storeAsm := assembly store 0 storeRs1 rs2 storeImm
    let pg := recordInstruction pg store 0 storeRs1 rs2 storeImm
    let storeAsm := match generateComment pg store 0 storeRs1 rs2 storeImm with
      | some c => storeAsm ++ "  # " ++ c
      | none => storeAsm
    .ok ([(loadEncoded, loadAsm), (storeEncoded, storeAsm)], pg, s)

/-- `PatternGenerator.generate_raw_hazard` (`patterns.py` 390-463). -/
def generateRawHazard (isa : RISCVISA) (pg : PGState) (s : RandStream) :
    Except GErr (List (Nat × String) × PGState × RandStream) :=
  let writeInstrs := isa.instructions.filter
    (fun i => i.fmt ∉ [InstructionFormat.S, InstructionFormat.B])
  let readInstrs := isa.instructions.filter
    (fun i => i.fmt ∉ [InstructionFormat.U, InstructionFormat.J])
  if writeInstrs.length < 2 then generateRandomSequence isa pg 2 s
  else
    let (instr1, s) := choiceD writeInstrs iAdd s
    let (rd, s) := registersRandom true s
    let (rs1, s) := registersRandom true s
    let (rs2, s) := registersRandom true s
    let (imm, rs1, rs2, s) :=
      if instr1.fmt = .R then ((0 : Int), rs1, rs2, s)
      else if instr1.fmt = .I then
        let (imm, s) := getImmediate isa instr1 s
        (imm, rs1, 0, s)
      else if instr1.fmt = .U then
        let (imm, s) := getImmediate isa instr1 s
        (imm, 0, 0, s)
      else ((0 : Int), rs1, rs2, s)
    let encoded1 := encode instr1 rd rs1 rs2 imm
    let asm1 := assembly instr1 rd rs1 rs2 imm
    let pg := recordInstruction pg instr1 rd rs1 rs2 imm
    let asm1 := match generateComment pg instr1 rd rs1 rs2 imm with
      | some c => asm1 ++ "  # " ++ c
      | none => asm1
    let (instr2, s) := choiceD readInstrs iAdd s
    let (useAsRs1, s) := choiceD [true, false] true s
    let (rs1', rs2', s) :=
      if useAsRs1 then
        let (r, s) := registersRandom true s
        (rd, r, s)
      else
        let (r, s) := registersRandom true s
        (r, rd, s)
    let (rd2, s) :=
      if instr2.fmt ∉ [InstructionFormat.S, InstructionFormat.B] then
        registersRandom true s
      else (0, s)
    let (imm2, rs2', rd2, s) :=
      if instr2.fmt = .R then ((0 : Int), rs2', rd2, s)
      else if instr2.fmt = .I then
        let (imm2, s) := getImmediate isa instr2 s
        (imm2, 0, rd2, s)
      else if instr2.fmt = .S then
        let (imm2, s) := getImmediate isa instr2 s
        (imm2, rs2', 0, s)
      else if instr2.fmt = .B then
        let (imm2, s) := getImmediate isa instr2 s
        (imm2, rs2', 0, s)
      else ((0 : Int), rs2', rd2, s)
    let encoded2 := encode instr2 rd2 rs1' rs2' imm2
    let asm2 := assembly instr2 rd2 rs1' rs2' imm2
    let pg := recordInstruction pg instr2 rd2 rs1' rs2' imm2
    let asm2 := match generateComment pg instr2 rd2 rs1' rs2' imm2 with
      | some c => asm2 ++ "  # " ++ c
      | none => asm2
    .ok ([(encoded1, asm1), (encoded2, asm2)], pg, s)

/-- `PatternGenerator.generate_war_hazard` (`patterns.py` 465-538).  The
source generates no comment for the first instruction. -/
def generateWarHazard (isa : RISCVISA) (pg : PGState) (s : RandStream) :
    Except GErr (List (Nat × String) × PGState × RandStream) :=
  let readInstrs := isa.instructions.filter
    (fun i => i.fmt ∉ [InstructionFormat.U, InstructionFormat.J])
  let writeInstrs := isa.instructions.filter
    (fun i => i.fmt ∉ [InstructionFormat.S, InstructionFormat.B])
  if readInstrs.length < 2 then generateRandomSequence isa pg 2 s
  else
    let (instr1, s) := choiceD readInstrs iAdd s
    let (hazardReg, s) := registersRandom true s
    let (useAsRs1, s) := choiceD [true, false] true s
    let (rs1, rs2, s) :=
      if useAsRs1 then
        let (r, s) := registersRandom true s
        (hazardReg, r, s)
      else
        let (r, s) := registersRandom true s
        (r, hazardReg, s)
    let (rd, s) :=
      if instr1.fmt ∉ [InstructionFormat.S, InstructionFormat.B] then
        registersRandom true s
      else (0, s)
    let (imm, rs2, rd, s) :=
      if instr1.fmt = .R then ((0 : Int), rs2, rd, s)
      else if instr1.fmt = .I then
        let (imm, s) := getImmediate isa instr1 s
        (imm, 0, rd, s)
      else if instr1.fmt = .S then
        let (imm, s) := getImmediate isa instr1 s
        (imm, rs2, 0, s)
      else if instr1.fmt = .B then
        let (imm, s) := getImmediate isa instr1 s
        (imm, rs2, 0, s)
      else ((0 : Int), rs2, rd, s)
    let encoded1 := encode instr1 rd rs1 rs2 imm
    let asm1 := assembly instr1 rd rs1 rs2 imm
    let pg := recordInstruction pg instr1 rd rs1 rs2 imm
    let (instr2, s) := choiceD writeInstrs iAdd s
    let rd2 := hazardReg
    let (rs1', s) := registersRandom true s
    let (rs2', s) := registersRandom true s
    let (imm2, rs2', rs1', s) :=
      if instr2.fmt = .R then ((0 : Int), rs2', rs1', s)
      else if instr2.fmt = .I then
        let (imm2, s) := getImmediate isa instr2 s
        (imm2, 0, rs1', s)
      else if instr2.fmt = .U then
        let (imm2, s) := getImmediate isa instr2 s
        (imm2, 0, 0, s)
      else ((0 : Int), rs2', rs1', s)
    let encoded2 := encode instr2 rd2 rs1' rs2' imm2
    let asm2 := assembly instr2 rd2 rs1' rs2' imm2
    let pg := recordInstruction pg instr2 rd2 rs1' rs2' imm2
    let asm2 := match generateComment pg instr2 rd2 rs1' rs2' imm2 with
      | some c => asm2 ++ "  # " ++ c
      | none => asm2
    .ok ([(encoded1, asm1), (encoded2, asm2)], pg, s)

/-- `PatternGenerator.generate_waw_hazard` (`patterns.py` 540-592).  Note
that this builder records nothing in the semantic state and generates no
comments: the returned `PGState` is the input one, untouched. -/
def generateWawHazard (isa : RISCVISA) (pg : PGState) (s : RandStream) :
    Except GErr (List (Nat × String) × PGState × RandStream) :=
  let writeInstrs := isa.instructions.filter
    (fun i => i.fmt ∉ [InstructionFormat.S, InstructionFormat.B])
  if writeInstrs.length < 2 then generateRandomSequence isa pg 2 s
  else
    let (instr1, s) := choiceD writeInstrs iAdd s
    let (instr2, s) := choiceD (writeInstrs.filter (fun i => i ≠ instr1)) iAdd s
    let (hazardReg, s) := registersRandom true s
    let (rs1a, s) := registersRandom true s
    let (rs2a, s) := registersRandom true s
    let (imm1, rs2a, rs1a, s) :=
      if instr1.fmt = .R then ((0 : Int), rs2a, rs1a, s)
      else if instr1.fmt = .I then
        let (imm1, s) := getImmediate isa instr1 s
        (imm1, 0, rs1a, s)
      else if instr1.fmt = .U then
        let (imm1, s) := getImmediate isa instr1 s
        (imm1, 0, 0, s)
      else ((0 : Int), rs2a, rs1a, s)
    let encoded1 := encode instr1 hazardReg rs1a rs2a imm1
    let asm1 := assembly instr1 hazardReg rs1a rs2a imm1
    let (rs1b, s) := registersRandom true s
    let (rs2b, s) := registersRandom true s
    let (imm2, rs2b, rs1b, s) :=
      if instr2.fmt = .R then ((0 : Int), rs2b, rs1b, s)
      else if instr2.fmt = .I then
        let (imm2, s) := getImmediate isa instr2 s
        (imm2, 0, rs1b, s)
      else if instr2.fmt = .U then
        let (imm2, s) := getImmediate isa instr2 s
        (imm2, 0, 0, s)
      else ((0 : Int), rs2b, rs1b, s)
    let encoded2 := encode instr2 hazardReg rs1b rs2b imm2
    let asm2 := assembly instr2 hazardReg rs1b rs2b imm2
    .ok ([(encoded1, asm1), (encoded2, asm2)], pg, s)

/-- The `while instr.format in [B, J]` re-roll in
`generate_basic_block`, fuel-bounded like the zero-exclusion loop. -/
def rerollNonBranch (isa : RISCVISA) : Nat → RandStream →
    Except GErr (Instruction × RandStream)
  | 0, _ => .error .hung
  | fuel + 1, s =>
      match getRandomInstruction isa s with
      | .error e => .error e
      | .ok (instr, s) =>
        if instr.fmt ∈ [InstructionFormat.B, InstructionFormat.J] then
          rerollNonBranch isa fuel s
        else .ok (instr, s)

/-- The first `size - 1` non-control-flow instructions of a basic block. -/
def basicBlockBody (isa : RISCVISA) (fuel : Nat) : PGState → Nat → RandStream →
    Except GErr (List (Nat × String) × PGState × RandStream)
  | pg, 0, s => .ok ([], pg, s)
  | pg, k + 1, s =>
      match rerollNonBranch isa fuel s with
      | .error e => .error e
      | .ok (instr, s) =>
        match generateSingleRandomInstruction isa pg (some instr) s with
        | .error e => .error e
        | .ok (pair, pg, s) =>
          match basicBlockBody isa fuel pg k s with
          | .error e => .error e
          | .ok (rest, pg, s) => .ok (pair :: rest, pg, s)

/-- `PatternGenerator.generate_basic_block` (`patterns.py` 594-630). -/
def generateBasicBlock (isa : RISCVISA) (pg : PGState) (size fuel : Nat)
    (s : RandStream) : Except GErr (List (Nat × String) × PGState × RandStream) :=
  if size < 2 then generateRandomSequence isa pg size s
  else
    match basicBlockBody isa fuel pg (size - 1) s with
    | .error e => .error e
    | .ok (body, pg, s) =>
      let (r, s) := randFloat s
      if (1 : ℚ) / 2 < r then
        let branchInstrs := isa.instructions.filter (fun i => i.fmt = .B)
        let jumpInstrs := isa.instructions.filter (fun i => i.fmt = .J)
        if branchInstrs ≠ [] ∨ jumpInstrs ≠ [] then
          let (useBranch, s) :=
            if branchInstrs ≠ [] then
              if jumpInstrs = [] then (true, s)
              else
                let (r2, s) := randFloat s
                ((1 : ℚ) / 2 < r2, s)
            else (false, s)
          let (instr, s) :=
            if useBranch then choiceD branchInstrs iAdd s
            else choiceD jumpInstrs iAdd s
          match generateSingleRandomInstruction isa pg (some instr) s with
          | .error e => .error e
          | .ok (pair, pg, s) => .ok (body ++ [pair], pg, s)
        else
          match generateSingleRandomInstruction isa pg none s with
          | .error e => .error e
          | .ok (pair, pg, s) => .ok (body ++ [pair], pg, s)
      else
        match generateSingleRandomInstruction isa pg none s with
        | .error e => .error e
        | .ok (pair, pg, s) => .ok (body ++ [pair], pg, s)

/-- The `while remaining > 0` loop of
`PatternGenerator.generate_mixed_patterns` (`patterns.py` 632-682). -/
def generateMixedGo (isa : RISCVISA) (pats : List String) (density : ℚ)
    (pg : PGState) (remaining : Nat) (s : RandStream) :
    Except GErr (List (Nat × String) × PGState × RandStream) :=
  if h0 : remaining = 0 then .ok ([], pg, s)
  else if h2 : 2 ≤ remaining then
    let (r, s') := randFloat s
    if r < density then
      let (ptype, s') := choiceD pats "random" s'
      if ptype = "load_store" ∧ 2 ≤ remaining then
        match generateLoadStorePair isa pg s' with
        | .error e => .error e
        | .ok (pair, pg', s') =>
          match generateMixedGo isa pats density pg' (remaining - 2) s' with
          | .error e => .error e
          | .ok (rest, pg'', s'') => .ok (pair ++ rest, pg'', s'')
      else if ptype = "raw" ∧ 2 ≤ remaining then
        match generateRawHazard isa pg s' with
        | .error e => .error e
        | .ok (pair, pg', s') =>
          match generateMixedGo isa pats density pg' (remaining - 2) s' with
          | .error e => .error e
          | .ok (rest, pg'', s'') => .ok (pair ++ rest, pg'', s'')
      else if ptype = "war" ∧ 2 ≤ remaining then
        match generateWarHazard isa pg s' with
        | .error e => .error e
        | .ok (pair, pg', s') =>
          match generateMixedGo isa pats density pg' (remaining - 2) s' with
          | .error e => .error e
          | .ok (rest, pg'', s'') => .ok (pair ++ rest, pg'', s'')
      else if ptype = "waw" ∧ 2 ≤ remaining then
        match generateWawHazard isa pg s' with
        | .error e => .error e
        | .ok (pair, pg', s') =>
          match generateMixedGo isa pats density pg' (remaining - 2) s' with
          | .error e => .error e
          | .ok (rest, pg'', s'') => .ok (pair ++ rest, pg'', s'')
      else
        match generateSingleRandomInstruction isa pg none s' with
        | .error e => .error e
        | .ok (pair, pg', s') =>
          match generateMixedGo isa pats density pg' (remaining - 1) s' with
          | .error e => .error e
          | .ok (rest, pg'', s'') => .ok (pair :: rest, pg'', s'')
    else
      match generateSingleRandomInstruction isa pg none s' with
      | .error e => .error e
      | .ok (pair, pg', s') =>
        match generateMixedGo isa pats density pg' (remaining - 1) s' with
        | .error e => .error e
        | .ok (rest, pg'', s'') => .ok (pair :: rest, pg'', s'')
  else
    match generateSingleRandomInstruction isa pg none s with
    | .error e => .error e
    | .ok (pair, pg', s') =>
      match generateMixedGo isa pats density pg' (remaining - 1) s' with
      | .error e => .error e
      | .ok (rest, pg'', s'') => .ok (pair :: rest, pg'', s'')
termination_by remaining
decreasing_by all_goals omega

/-- `PatternGenerator.generate_mixed_patterns`: default pattern list,
density clamped to [0, 1], loop, and the final `result[:count]`. -/
def generateMixedPatterns (isa : RISCVISA) (pg : PGState) (count : Nat)
    (opats : Option (List String)) (density : ℚ) (s : RandStream) :
    Except GErr (List (Nat × String) × PGState × RandStream) :=
  let pats := opats.getD ["random", "load_store", "raw", "war", "waw"]
  let density := max 0 (min 1 density)
  match generateMixedGo isa pats density pg count s with
  | .error e => .error e
  | .ok (l, pg, s) => .ok (l.take count, pg, s)

/-! ### Support lemmas for the hazard-builder theorems -/

theorem choiceD_fst_mem_or {α : Type} (l : List α) (d : α) (s : RandStream) :
    (choiceD l d s).1 ∈ l ∨ (choiceD l d s).1 = d := by
  unfold choiceD drawNat
  simp only
  rcases Nat.lt_or_ge (s 0 % l.length) l.length with h | h
  · left
    rw [List.getD_eq_getElem l d h]
    exact List.getElem_mem h
  · right
    exact List.getD_eq_default l d h

theorem registersRandom_true_bounds (s : RandStream) :
    1 ≤ (registersRandom true s).1 ∧ (registersRandom true s).1 ≤ 31 := by
  show 1 ≤ 1 + s 0 % 31 ∧ 1 + s 0 % 31 ≤ 31
  have : s 0 % 31 < 31 := Nat.mod_lt _ (by omega)
  omega

/-- The opcodes of the catalog's I-format instructions. -/
def iTypeOpcodes : List Nat := [0b0010011, 0b0000011, 0b1100111, 0b1110011]

theorem fmt_write_of_mem_or_default (x : Instruction)
    (h : x ∈ defaultISA.instructions.filter
        (fun i => i.fmt ∉ [InstructionFormat.S, InstructionFormat.B]) ∨ x = iAdd) :
    x.fmt = .R ∨ x.fmt = .I ∨ x.fmt = .U ∨ x.fmt = .J := by
  rcases h with h | h
  · have hp := List.of_mem_filter h
    simp only [decide_eq_true_eq] at hp
    cases hfmt : x.fmt
    · exact Or.inl rfl
    · exact Or.inr (Or.inl rfl)
    · have hm : x.fmt ∈ [InstructionFormat.S, InstructionFormat.B] := by
        rw [hfmt]
        simp
      exact absurd hm hp
    · have hm : x.fmt ∈ [InstructionFormat.S, InstructionFormat.B] := by
        rw [hfmt]
        simp
      exact absurd hm hp
    · exact Or.inr (Or.inr (Or.inl rfl))
    · exact Or.inr (Or.inr (Or.inr rfl))
  · subst h
    exact Or.inl rfl

theorem fmt_read_of_mem_or_default (x : Instruction)
    (h : x ∈ defaultISA.instructions.filter
        (fun i => i.fmt ∉ [InstructionFormat.U, InstructionFormat.J]) ∨ x = iAdd) :
    x.fmt = .R ∨ x.fmt = .I ∨ x.fmt = .S ∨ x.fmt = .B := by
  rcases h with h | h
  · have hp := List.of_mem_filter h
    simp only [decide_eq_true_eq] at hp
    cases hfmt : x.fmt
    · exact Or.inl rfl
    · exact Or.inr (Or.inl rfl)
    · exact Or.inr (Or.inr (Or.inl rfl))
    · exact Or.inr (Or.inr (Or.inr rfl))
    · have hm : x.fmt ∈ [InstructionFormat.U, InstructionFormat.J] := by
        rw [hfmt]
        simp
      exact absurd hm hp
    · have hm : x.fmt ∈ [InstructionFormat.U, InstructionFormat.J] := by
        rw [hfmt]
        simp
      exact absurd hm hp
  · subst h
    exact Or.inl rfl

theorem opcode_lt_128_of_mem_or_default (x : Instruction)
    (h : x ∈ defaultISA.instructions ∨ x = iAdd) : x.opcode < 128 := by
  have hall : ∀ j ∈ loadInstructions, j.opcode < 128 := by decide
  rcases h with h | h
  · exact hall x h
  · subst h
    decide

theorem opcode_iType_of_mem_or_default (x : Instruction)
    (h : x ∈ defaultISA.instructions ∨ x = iAdd) (hf : x.fmt = .I) :
    x.opcode ∈ iTypeOpcodes := by
  have hall : ∀ j ∈ loadInstructions, j.fmt = .I → j.opcode ∈ iTypeOpcodes := by decide
  rcases h with h | h
  · exact hall x h hf
  · rw [h] at hf
    exact absurd hf (by decide)

/-- Core of the WAW builder after the two catalog choices, for arbitrary
chosen instructions of register-writing formats: both words carry the
same non-zero `rd` field.  The let-chain is the tail of
`generateWawHazard` verbatim. -/
theorem waw_main (i1 i2 : Instruction) (pg : PGState) (s : RandStream)
    (h1 : i1.fmt = .R ∨ i1.fmt = .I ∨ i1.fmt = .U ∨ i1.fmt = .J)
    (h2 : i2.fmt = .R ∨ i2.fmt = .I ∨ i2.fmt = .U ∨ i2.fmt = .J) :
    ∃ w1 a1 w2 a2 s',
      (let (hazardReg, s) := registersRandom true s
       let (rs1a, s) := registersRandom true s
       let (rs2a, s) := registersRandom true s
       let (imm1, rs2a, rs1a, s) :=
         if i1.fmt = InstructionFormat.R then ((0 : Int), rs2a, rs1a, s)
         else if i1.fmt = InstructionFormat.I then
           let (imm1, s) := getImmediate defaultISA i1 s
           (imm1, 0, rs1a, s)
         else if i1.fmt = InstructionFormat.U then
           let (imm1, s) := getImmediate defaultISA i1 s
           (imm1, 0, 0, s)
         else ((0 : Int), rs2a, rs1a, s)
       let encoded1 := encode i1 hazardReg rs1a rs2a imm1
       let asm1 := assembly i1 hazardReg rs1a rs2a imm1
       let (rs1b, s) := registersRandom true s
       let (rs2b, s) := registersRandom true s
       let (imm2, rs2b, rs1b, s) :=
         if i2.fmt = InstructionFormat.R then ((0 : Int), rs2b, rs1b, s)
         else if i2.fmt = InstructionFormat.I then
           let (imm2, s) := getImmediate defaultISA i2 s
           (imm2, 0, rs1b, s)
         else if i2.fmt = InstructionFormat.U then
           let (imm2, s) := getImmediate defaultISA i2 s
           (imm2, 0, 0, s)
         else ((0 : Int), rs2b, rs1b, s)
       let encoded2 := encode i2 hazardReg rs1b rs2b imm2
       let asm2 := assembly i2 hazardReg rs1b rs2b imm2
       (Except.ok ([(encoded1, asm1), (encoded2, asm2)], pg, s) :
         Except GErr (List (Nat × String) × PGState × RandStream))) =
        .ok ([(w1, a1), (w2, a2)], pg, s') ∧
      rdField w1 = rdField w2 ∧ rdField w1 ≠ 0 := by
  have h1o := h1
  have h2o := h2
  have hbz := registersRandom_true_bounds s
  dsimp only
  rcases h1 with h1 | h1 | h1 | h1 <;> rcases h2 with h2 | h2 | h2 | h2 <;>
    simp only [h1, h2, reduceIte] <;>
    refine ⟨_, _, _, _, _, rfl, ?_, ?_⟩ <;>
    rw [rdField_encode _ _ _ _ _ h1o] <;>
    try rw [rdField_encode _ _ _ _ _ h2o]
  all_goals omega

/-- The WAW builder on the actual catalog: both instructions write the
same non-zero hazard register, and the pattern-generator state comes back
untouched. -/
theorem wawHazard_writes_shared_rd (pg : PGState) (s : RandStream) :
    ∃ w1 a1 w2 a2 s',
      generateWawHazard defaultISA pg s = .ok ([(w1, a1), (w2, a2)], pg, s') ∧
      rdField w1 = rdField w2 ∧ rdField w1 ≠ 0 := by
  have hm1 := choiceD_fst_mem_or (defaultISA.instructions.filter
    (fun i => i.fmt ∉ [InstructionFormat.S, InstructionFormat.B])) iAdd s
  have hf1 := fmt_write_of_mem_or_default _ hm1
  have hm2 := choiceD_fst_mem_or ((defaultISA.instructions.filter
      (fun i => i.fmt ∉ [InstructionFormat.S, InstructionFormat.B])).filter
      (fun i => i ≠ (choiceD (defaultISA.instructions.filter
        (fun i => i.fmt ∉ [InstructionFormat.S, InstructionFormat.B])) iAdd s).1))
    iAdd (choiceD (defaultISA.instructions.filter
      (fun i => i.fmt ∉ [InstructionFormat.S, InstructionFormat.B])) iAdd s).2
  have hf2 := fmt_write_of_mem_or_default _
    (hm2.imp_left (fun hm => List.mem_of_mem_filter hm))
  unfold generateWawHazard
  dsimp only
  rw [if_neg (by decide :
    ¬(defaultISA.instructions.filter
        (fun i => i.fmt ∉ [InstructionFormat.S, InstructionFormat.B])).length < 2)]
  exact waw_main _ _ pg _ hf1 hf2

/-- Tail of the RAW builder from the choice of the reading instruction
onward, for an arbitrary stream and a non-zero hazard register `rd`: the
second word reads `rd` as rs1 or rs2, except in the I-format/rs2-coin
case, where the dependency is dropped and the word is recognizably
I-format by its opcode.  The let-chain is the tail of
`generateRawHazard` verbatim. -/
theorem raw_tail (e1 : Nat) (a1 : String) (rd : Nat) (pg : PGState) (s : RandStream)
    (hrd : 1 ≤ rd ∧ rd ≤ 31) :
    ∃ w2 a2 pg' s',
      (let (instr2, s) := choiceD (defaultISA.instructions.filter
        (fun i => i.fmt ∉ [InstructionFormat.U, InstructionFormat.J])) iAdd s
       let (useAsRs1, s) := choiceD [true, false] true s
       let (rs1', rs2', s) :=
         if useAsRs1 then
           let (r, s) := registersRandom true s
           (rd, r, s)
         else
           let (r, s) := registersRandom true s
           (r, rd, s)
       let (rd2, s) :=
         if instr2.fmt ∉ [InstructionFormat.S, InstructionFormat.B] then
           registersRandom true s
         else (0, s)
       let (imm2, rs2', rd2, s) :=
         if instr2.fmt = InstructionFormat.R then ((0 : Int), rs2', rd2, s)
         else if instr2.fmt = InstructionFormat.I then
           let (imm2, s) := getImmediate defaultISA instr2 s
           (imm2, 0, rd2, s)
         else if instr2.fmt = InstructionFormat.S then
           let (imm2, s) := getImmediate defaultISA instr2 s
           (imm2, rs2', 0, s)
         else if instr2.fmt = InstructionFormat.B then
           let (imm2, s) := getImmediate defaultISA instr2 s
           (imm2, rs2', 0, s)
         else ((0 : Int), rs2', rd2, s)
       let encoded2 := encode instr2 rd2 rs1' rs2' imm2
       let asm2 := assembly instr2 rd2 rs1' rs2' imm2
       let pg := recordInstruction pg instr2 rd2 rs1' rs2' imm2
       let asm2 := match generateComment pg instr2 rd2 rs1' rs2' imm2 with
         | some c => asm2 ++ "  # " ++ c
         | none => asm2
       (Except.ok ([(e1, a1), (encoded2, asm2)], pg, s) :
         Except GErr (List (Nat × String) × PGState × RandStream))) =
        .ok ([(e1, a1), (w2, a2)], pg', s') ∧
      (rs1Field w2 = rd ∨ rs2Field w2 = rd ∨ opcField w2 ∈ iTypeOpcodes) := by
  have hm2 := choiceD_fst_mem_or (defaultISA.instructions.filter
    (fun i => i.fmt ∉ [InstructionFormat.U, InstructionFormat.J])) iAdd s
  have hf2 := fmt_read_of_mem_or_default _ hm2
  have h2all := hf2
  have hopc := opcode_lt_128_of_mem_or_default _
    (hm2.imp_left (fun hm => List.mem_of_mem_filter hm))
  have hiop := opcode_iType_of_mem_or_default _
    (hm2.imp_left (fun hm => List.mem_of_mem_filter hm))
  dsimp only
  rcases hf2 with h2 | h2 | h2 | h2
  · cases hcoin : (choiceD [true, false] true (choiceD (defaultISA.instructions.filter
      (fun i => i.fmt ∉ [InstructionFormat.U, InstructionFormat.J])) iAdd s).2).1 <;>
      simp only [h2, hcoin, reduceIte, reduceCtorEq, Bool.false_eq_true,
        eq_self_iff_true, if_true, if_false] <;> refine ⟨_, _, _, _, rfl, ?_⟩
    · right
      left
      rw [rs2Field_encode _ _ _ _ _ (Or.inl h2)]
      omega
    · left
      rw [rs1Field_encode _ _ _ _ _ (Or.inl h2)]
      omega
  · cases hcoin : (choiceD [true, false] true (choiceD (defaultISA.instructions.filter
      (fun i => i.fmt ∉ [InstructionFormat.U, InstructionFormat.J])) iAdd s).2).1 <;>
      simp only [h2, hcoin, reduceIte, reduceCtorEq, Bool.false_eq_true,
        eq_self_iff_true, if_true, if_false] <;> refine ⟨_, _, _, _, rfl, ?_⟩
    · right
      right
      rw [opcField_encode, Nat.mod_eq_of_lt hopc]
      exact hiop h2
    · left
      rw [rs1Field_encode _ _ _ _ _ (Or.inr (Or.inl h2))]
      omega
  · cases hcoin : (choiceD [true, false] true (choiceD (defaultISA.instructions.filter
      (fun i => i.fmt ∉ [InstructionFormat.U, InstructionFormat.J])) iAdd s).2).1 <;>
      simp only [h2, hcoin, reduceIte, reduceCtorEq, Bool.false_eq_true,
        eq_self_iff_true, if_true, if_false] <;> refine ⟨_, _, _, _, rfl, ?_⟩
    · right
      left
      rw [rs2Field_encode _ _ _ _ _ (Or.inr (Or.inl h2))]
      omega
    · left
      rw [rs1Field_encode _ _ _ _ _ (Or.inr (Or.inr (Or.inl h2)))]
      omega
  · cases hcoin : (choiceD [true, false] true (choiceD (defaultISA.instructions.filter
      (fun i => i.fmt ∉ [InstructionFormat.U, InstructionFormat.J])) iAdd s).2).1 <;>
      simp only [h2, hcoin, reduceIte, reduceCtorEq, Bool.false_eq_true,
        eq_self_iff_true, if_true, if_false] <;> refine ⟨_, _, _, _, rfl, ?_⟩
    · right
      left
      rw [rs2Field_encode _ _ _ _ _ (Or.inr (Or.inr h2))]
      omega
    · left
      rw [rs1Field_encode _ _ _ _ _ (Or.inr (Or.inr (Or.inr h2)))]
      omega

/-- Body of the RAW builder for an arbitrary first (writing) instruction:
the run succeeds, the first word writes a non-zero register `rd`, and the
second word reads `rd` as rs1 or rs2 — or is I-format (the
rs2-coin/I-format combination drops the dependency).  The let-chain is
the else-branch of `generateRawHazard` verbatim. -/
theorem raw_main (i1 : Instruction) (pg : PGState) (s : RandStream)
    (h1 : i1.fmt = .R ∨ i1.fmt = .I ∨ i1.fmt = .U ∨ i1.fmt = .J) :
    ∃ rd w1 b1 w2 b2 pg' s',
      (let (rd, s) := registersRandom true s
       let (rs1, s) := registersRandom true s
       let (rs2, s) := registersRandom true s
       let (imm, rs1, rs2, s) :=
         if i1.fmt = InstructionFormat.R then ((0 : Int), rs1, rs2, s)
         else if i1.fmt = InstructionFormat.I then
           let (imm, s) := getImmediate defaultISA i1 s
           (imm, rs1, 0, s)
         else if i1.fmt = InstructionFormat.U then
           let (imm, s) := getImmediate defaultISA i1 s
           (imm, 0, 0, s)
         else ((0 : Int), rs1, rs2, s)
       let encoded1 := encode i1 rd rs1 rs2 imm
       let asm1 := assembly i1 rd rs1 rs2 imm
       let pg := recordInstruction pg i1 rd rs1 rs2 imm
       let asm1 := match generateComment pg i1 rd rs1 rs2 imm with
         | some c => asm1 ++ "  # " ++ c
         | none => asm1
       let (instr2, s) := choiceD (defaultISA.instructions.filter
         (fun i : Instruction => i.fmt ∉ [InstructionFormat.U, InstructionFormat.J])) iAdd s
       let (useAsRs1, s) := choiceD [true, false] true s
       let (rs1', rs2', s) :=
         if useAsRs1 then
           let (r, s) := registersRandom true s
           (rd, r, s)
         else
           let (r, s) := registersRandom true s
           (r, rd, s)
       let (rd2, s) :=
         if instr2.fmt ∉ [InstructionFormat.S, InstructionFormat.B] then
           registersRandom true s
         else (0, s)
       let (imm2, rs2', rd2, s) :=
         if instr2.fmt = InstructionFormat.R then ((0 : Int), rs2', rd2, s)
         else if instr2.fmt = InstructionFormat.I then
           let (imm2, s) := getImmediate defaultISA instr2 s
           (imm2, 0, rd2, s)
         else if instr2.fmt = InstructionFormat.S then
           let (imm2, s) := getImmediate defaultISA instr2 s
           (imm2, rs2', 0, s)
         else if instr2.fmt = InstructionFormat.B then
           let (imm2, s) := getImmediate defaultISA instr2 s
           (imm2, rs2', 0, s)
         else ((0 : Int), rs2', rd2, s)
       let encoded2 := encode instr2 rd2 rs1' rs2' imm2
       let asm2 := assembly instr2 rd2 rs1' rs2' imm2
       let pg := recordInstruction pg instr2 rd2 rs1' rs2' imm2
       let asm2 := match generateComment pg instr2 rd2 rs1' rs2' imm2 with
         | some c => asm2 ++ "  # " ++ c
         | none => asm2
       (Except.ok ([(encoded1, asm1), (encoded2, asm2)], pg, s) :
         Except GErr (List (Nat × String) × PGState × RandStream))) =
        .ok ([(w1, b1), (w2, b2)], pg', s') ∧
      1 ≤ rd ∧ rd ≤ 31 ∧ rdField w1 = rd ∧
      (rs1Field w2 = rd ∨ rs2Field w2 = rd ∨ opcField w2 ∈ iTypeOpcodes) := by
  have h1o := h1
  have hb := registersRandom_true_bounds s
  dsimp only
  rcases h1 with h1 | h1 | h1 | h1 <;>
    simp only [h1, reduceIte]
  all_goals
    obtain ⟨w2, b2, pg2, s2, heq, hdep⟩ := raw_tail _ _ _ _ _ hb
  all_goals
    refine ⟨(registersRandom true s).1, _, _, w2, b2, pg2, s2, heq, hb.1, hb.2,
      ?_, hdep⟩
  all_goals rw [rdField_encode _ _ _ _ _ h1o]
  all_goals omega

/-- The RAW builder on the actual catalog: it always succeeds with two
instructions; the first writes a non-zero register `rd`, and the second
reads `rd` as rs1 or rs2 unless it is I-format (where the rs2-coin drops
the dependency). -/
theorem rawHazard_dependency (pg : PGState) (s : RandStream) :
    ∃ rd w1 b1 w2 b2 pg' s',
      generateRawHazard defaultISA pg s = .ok ([(w1, b1), (w2, b2)], pg', s') ∧
      1 ≤ rd ∧ rd ≤ 31 ∧ rdField w1 = rd ∧
      (rs1Field w2 = rd ∨ rs2Field w2 = rd ∨ opcField w2 ∈ iTypeOpcodes) := by
  have hm1 := choiceD_fst_mem_or (defaultISA.instructions.filter
    (fun i => i.fmt ∉ [InstructionFormat.S, InstructionFormat.B])) iAdd s
  have hf1 := fmt_write_of_mem_or_default _ hm1
  unfold generateRawHazard
  dsimp only
  rw [if_neg (by decide :
    ¬(defaultISA.instructions.filter
        (fun i => i.fmt ∉ [InstructionFormat.S, InstructionFormat.B])).length < 2)]
  exact raw_main _ pg _ hf1

/-- Tail of the WAR builder from the choice of the writing instruction
onward: the run succeeds and the second word's rd field equals the hazard
register.  The let-chain is the tail of `generateWarHazard` verbatim. -/
theorem war_tail (e1 : Nat) (a1 : String) (hz : Nat) (pg : PGState)
    (s : RandStream) (hhz : hz ≤ 31) :
    ∃ w2 b2 pg' s',
      (let (instr2, s) := choiceD (defaultISA.instructions.filter
        (fun i : Instruction => i.fmt ∉ [InstructionFormat.S, InstructionFormat.B])) iAdd s
       let rd2 := hz
       let (rs1', s) := registersRandom true s
       let (rs2', s) := registersRandom true s
       let (imm2, rs2', rs1', s) :=
         if instr2.fmt = InstructionFormat.R then ((0 : Int), rs2', rs1', s)
         else if instr2.fmt = InstructionFormat.I then
           let (imm2, s) := getImmediate defaultISA instr2 s
           (imm2, 0, rs1', s)
         else if instr2.fmt = InstructionFormat.U then
           let (imm2, s) := getImmediate defaultISA instr2 s
           (imm2, 0, 0, s)
         else ((0 : Int), rs2', rs1', s)
       let encoded2 := encode instr2 rd2 rs1' rs2' imm2
       let asm2 := assembly instr2 rd2 rs1' rs2' imm2
       let pg := recordInstruction pg instr2 rd2 rs1' rs2' imm2
       let asm2 := match generateComment pg instr2 rd2 rs1' rs2' imm2 with
         | some c => asm2 ++ "  # " ++ c
         | none => asm2
       (Except.ok ([(e1, a1), (encoded2, asm2)], pg, s) :
         Except GErr (List (Nat × String) × PGState × RandStream))) =
        .ok ([(e1, a1), (w2, b2)], pg', s') ∧
      rdField w2 = hz := by
  have hm2 := choiceD_fst_mem_or (defaultISA.instructions.filter
    (fun i => i.fmt ∉ [InstructionFormat.S, InstructionFormat.B])) iAdd s
  have hf2 := fmt_write_of_mem_or_default _ hm2
  have h2o := hf2
  dsimp only
  rcases hf2 with h2 | h2 | h2 | h2 <;>
    simp only [h2, reduceIte] <;>
    refine ⟨_, _, _, _, rfl, ?_⟩ <;>
    rw [rdField_encode _ _ _ _ _ h2o] <;>
    omega

set_option maxHeartbeats 1000000 in
/-- Body of the WAR builder for an arbitrary first (reading) instruction
from the catalog: the run succeeds, the second word writes the non-zero
hazard register `hz`, and the first word reads `hz` as rs1 or rs2 — or is
I-format (the rs2-coin/I-format combination drops the dependency).  The
let-chain is the else-branch of `generateWarHazard` verbatim. -/
theorem war_main (i1 : Instruction) (pg : PGState) (s : RandStream)
    (hmem : i1 ∈ defaultISA.instructions ∨ i1 = iAdd)
    (h1 : i1.fmt = .R ∨ i1.fmt = .I ∨ i1.fmt = .S ∨ i1.fmt = .B) :
    ∃ hz w1 b1 w2 b2 pg' s',
      (let (hazardReg, s) := registersRandom true s
       let (useAsRs1, s) := choiceD [true, false] true s
       let (rs1, rs2, s) :=
         if useAsRs1 then
           let (r, s) := registersRandom true s
           (hazardReg, r, s)
         else
           let (r, s) := registersRandom true s
           (r, hazardReg, s)
       let (rd, s) :=
         if i1.fmt ∉ [InstructionFormat.S, InstructionFormat.B] then
           registersRandom true s
         else (0, s)
       let (imm, rs2, rd, s) :=
         if i1.fmt = InstructionFormat.R then ((0 : Int), rs2, rd, s)
         else if i1.fmt = InstructionFormat.I then
           let (imm, s) := getImmediate defaultISA i1 s
           (imm, 0, rd, s)
         else if i1.fmt = InstructionFormat.S then
           let (imm, s) := getImmediate defaultISA i1 s
           (imm, rs2, 0, s)
         else if i1.fmt = InstructionFormat.B then
           let (imm, s) := getImmediate defaultISA i1 s
           (imm, rs2, 0, s)
         else ((0 : Int), rs2, rd, s)
       let encoded1 := encode i1 rd rs1 rs2 imm
       let asm1 := assembly i1 rd rs1 rs2 imm
       let pg := recordInstruction pg i1 rd rs1 rs2 imm
       let (instr2, s) := choiceD (defaultISA.instructions.filter
         (fun i : Instruction => i.fmt ∉ [InstructionFormat.S, InstructionFormat.B])) iAdd s
       let rd2 := hazardReg
       let (rs1', s) := registersRandom true s
       let (rs2', s) := registersRandom true s
       let (imm2, rs2', rs1', s) :=
         if instr2.fmt = InstructionFormat.R then ((0 : Int), rs2', rs1', s)
         else if instr2.fmt = InstructionFormat.I then
           let (imm2, s) := getImmediate defaultISA instr2 s
           (imm2, 0, rs1', s)
         else if instr2.fmt = InstructionFormat.U then
           let (imm2, s) := getImmediate defaultISA instr2 s
           (imm2, 0, 0, s)
         else ((0 : Int), rs2', rs1', s)
       let encoded2 := encode instr2 rd2 rs1' rs2' imm2
       let asm2 := assembly instr2 rd2 rs1' rs2' imm2
       let pg := recordInstruction pg instr2 rd2 rs1' rs2' imm2
       let asm2 := match generateComment pg instr2 rd2 rs1' rs2' imm2 with
         | some c => asm2 ++ "  # " ++ c
         | none => asm2
       (Except.ok ([(encoded1, asm1), (encoded2, asm2)], pg, s) :
         Except GErr (List (Nat × String) × PGState × RandStream))) =
        .ok ([(w1, b1), (w2, b2)], pg', s') ∧
      1 ≤ hz ∧ hz ≤ 31 ∧ rdField w2 = hz ∧
      (rs1Field w1 = hz ∨ rs2Field w1 = hz ∨ opcField w1 ∈ iTypeOpcodes) := by
  have h1o := h1
  have hb := registersRandom_true_bounds s
  have hopc := opcode_lt_128_of_mem_or_default _ hmem
  have hiop := opcode_iType_of_mem_or_default _ hmem
  dsimp only
  rcases h1 with h1 | h1 | h1 | h1
  · cases hcoin : (choiceD [true, false] true (registersRandom true s).2).1
    all_goals simp only [h1, hcoin, reduceIte, reduceCtorEq, Bool.false_eq_true,
      eq_self_iff_true, if_true, if_false]
    all_goals obtain ⟨w2, b2, pg2, s2, heq, hw2⟩ := war_tail _ _ _ _ _ hb.2
    all_goals refine ⟨(registersRandom true s).1, _, _, w2, b2, pg2, s2, heq,
      hb.1, hb.2, hw2, ?_⟩
    · right
      left
      rw [rs2Field_encode _ _ _ _ _ (Or.inl h1)]
      omega
    · left
      rw [rs1Field_encode _ _ _ _ _ (Or.inl h1)]
      omega
  · cases hcoin : (choiceD [true, false] true (registersRandom true s).2).1
    all_goals simp only [h1, hcoin, reduceIte, reduceCtorEq, Bool.false_eq_true,
      eq_self_iff_true, if_true, if_false]
    all_goals obtain ⟨w2, b2, pg2, s2, heq, hw2⟩ := war_tail _ _ _ _ _ hb.2
    all_goals refine ⟨(registersRandom true s).1, _, _, w2, b2, pg2, s2, heq,
      hb.1, hb.2, hw2, ?_⟩
    · right
      right
      rw [opcField_encode, Nat.mod_eq_of_lt hopc]
      exact hiop h1
    · left
      rw [rs1Field_encode _ _ _ _ _ (Or.inr (Or.inl h1))]
      omega
  · cases hcoin : (choiceD [true, false] true (registersRandom true s).2).1
    all_goals simp only [h1, hcoin, reduceIte, reduceCtorEq, Bool.false_eq_true,
      eq_self_iff_true, if_true, if_false]
    all_goals obtain ⟨w2, b2, pg2, s2, heq, hw2⟩ := war_tail _ _ _ _ _ hb.2
    all_goals refine ⟨(registersRandom true s).1, _, _, w2, b2, pg2, s2, heq,
      hb.1, hb.2, hw2, ?_⟩
    · right
      left
      rw [rs2Field_encode _ _ _ _ _ (Or.inr (Or.inl h1))]
      omega
    · left
      rw [rs1Field_encode _ _ _ _ _ (Or.inr (Or.inr (Or.inl h1)))]
      omega
  · cases hcoin : (choiceD [true, false] true (registersRandom true s).2).1
    all_goals simp only [h1, hcoin, reduceIte, reduceCtorEq, Bool.false_eq_true,
      eq_self_iff_true, if_true, if_false]
    all_goals obtain ⟨w2, b2, pg2, s2, heq, hw2⟩ := war_tail _ _ _ _ _ hb.2
    all_goals refine ⟨(registersRandom true s).1, _, _, w2, b2, pg2, s2, heq,
      hb.1, hb.2, hw2, ?_⟩
    · right
      left
      rw [rs2Field_encode _ _ _ _ _ (Or.inr (Or.inr h1))]
      omega
    · left
      rw [rs1Field_encode _ _ _ _ _ (Or.inr (Or.inr (Or.inr h1)))]
      omega

set_option maxHeartbeats 4000000 in
/-- The WAR builder on the actual catalog: it always succeeds with two
instructions; the second writes the non-zero hazard register, and the
first reads it as rs1 or rs2 unless it is I-format (where the rs2-coin
drops the dependency). -/
theorem warHazard_dependency (pg : PGState) (s : RandStream) :
    ∃ hz w1 b1 w2 b2 pg' s',
      generateWarHazard defaultISA pg s = .ok ([(w1, b1), (w2, b2)], pg', s') ∧
      1 ≤ hz ∧ hz ≤ 31 ∧ rdField w2 = hz ∧
      (rs1Field w1 = hz ∨ rs2Field w1 = hz ∨ opcField w1 ∈ iTypeOpcodes) := by
  have hm1 := choiceD_fst_mem_or (defaultISA.instructions.filter
    (fun i => i.fmt ∉ [InstructionFormat.U, InstructionFormat.J])) iAdd s
  have hf1 := fmt_read_of_mem_or_default _ hm1
  have hmem := hm1.imp_left (fun hm => List.mem_of_mem_filter hm)
  unfold generateWarHazard
  dsimp only
  rw [if_neg (by decide :
    ¬(defaultISA.instructions.filter
        (fun i => i.fmt ∉ [InstructionFormat.U, InstructionFormat.J])).length < 2)]
  generalize choiceD (defaultISA.instructions.filter
    (fun i => i.fmt ∉ [InstructionFormat.U, InstructionFormat.J])) iAdd s = c
    at hf1 hmem ⊢
  obtain ⟨i1, s1⟩ := c
  exact war_main i1 pg s1 hmem hf1

/-- The encoded words of a successful builder run (for concrete runs). -/
def resultWords (r : Except GErr (List (Nat × String) × PGState × RandStream)) :
    List Nat :=
  match r with
  | .ok (l, _, _) => l.map Prod.fst
  | .error _ => []

/-- C2.  The hazard builders on the default catalog: RAW's first
instruction writes a non-zero register `rd` and the second reads `rd` as
rs1 or rs2 — unless the second instruction is I-format and the builder's
coin chose the rs2 role, in which case the format fix-up zeroes rs2 and
the dependency is dropped (the escape is recognizable by the I-type
opcode); WAR's second instruction writes the non-zero hazard register and
the first reads it as rs1 or rs2, with the same I-format escape; WAW's
two instructions always write the same non-zero register. -/
theorem c2_hazard_builders_share_register :
    (∀ (pg : PGState) (s : RandStream),
      ∃ rd w1 b1 w2 b2 pg' s',
        generateRawHazard defaultISA pg s = .ok ([(w1, b1), (w2, b2)], pg', s') ∧
        1 ≤ rd ∧ rd ≤ 31 ∧ rdField w1 = rd ∧
        (rs1Field w2 = rd ∨ rs2Field w2 = rd ∨ opcField w2 ∈ iTypeOpcodes)) ∧
    (∀ (pg : PGState) (s : RandStream),
      ∃ hz w1 b1 w2 b2 pg' s',
        generateWarHazard defaultISA pg s = .ok ([(w1, b1), (w2, b2)], pg', s') ∧
        1 ≤ hz ∧ hz ≤ 31 ∧ rdField w2 = hz ∧
        (rs1Field w1 = hz ∨ rs2Field w1 = hz ∨ opcField w1 ∈ iTypeOpcodes)) ∧
    (∀ (pg : PGState) (s : RandStream),
      ∃ w1 b1 w2 b2 s',
        generateWawHazard defaultISA pg s = .ok ([(w1, b1), (w2, b2)], pg, s') ∧
        rdField w1 = rdField w2 ∧ rdField w1 ≠ 0) :=
  ⟨rawHazard_dependency, warHazard_dependency, wawHazard_writes_shared_rd⟩

/-- C2, counterexample to the claim as stated: a concrete RAW run in
which the first instruction is `add` writing x5, the second is `addi`
with the coin on the rs2 role, so the fix-up zeroes rs2 and the second
instruction reads only x9 — it does not read x5 as rs1 or rs2 (nor
anywhere in its immediate), refuting "the two instructions returned
always share the register in the documented hazard role". -/
theorem c2_counterexample :
    resultWords (generateRawHazard defaultISA ⟨none, none, 0⟩
        (streamOf [0, 4, 5, 6, 10, 1, 8, 2, 2048])) =
      [encode iAdd 5 6 7 0, encode iAddi 3 9 0 0] ∧
    rdField (encode iAdd 5 6 7 0) = 5 ∧
    rs1Field (encode iAddi 3 9 0 0) = 9 ∧
    rs2Field (encode iAddi 3 9 0 0) = 0 ∧
    immIField (encode iAddi 3 9 0 0) = 0 ∧
    opcField (encode iAddi 3 9 0 0) ∈ iTypeOpcodes := by
  decide

/-- C9.  With a semantic-state tracker attached, the WAW builder emits
two instructions yet returns the pattern-generator state — semantic state
and instruction index — exactly as it received it: `generate_waw_hazard`
never calls `_record_instruction`.  By contrast, `_record_instruction`
with a tracker attached always advances the instruction index, so the
WAW builder's instructions are the ones left unrecorded. -/
theorem c9_waw_skips_recording :
    (∀ (st : SemanticState) (ocg : Option CommentGenerator) (k : Nat)
        (s : RandStream),
      ∃ l s',
        generateWawHazard defaultISA ⟨some st, ocg, k⟩ s =
          .ok (l, ⟨some st, ocg, k⟩, s') ∧ l.length = 2) ∧
    (∀ (st : SemanticState) (ocg : Option CommentGenerator) (k : Nat)
        (instr : Instruction) (rd rs1 rs2 : Nat) (imm : Int),
      (recordInstruction ⟨some st, ocg, k⟩ instr rd rs1 rs2 imm).instrIdx = k + 1) := by
  constructor
  · intro st ocg k s
    obtain ⟨w1, b1, w2, b2, s', heq, -, -⟩ :=
      wawHazard_writes_shared_rd ⟨some st, ocg, k⟩ s
    exact ⟨[(w1, b1), (w2, b2)], s', heq, rfl⟩
  · intro st ocg k instr rd rs1 rs2 imm
    rfl

theorem choiceD_fst_mem {α : Type} (l : List α) (d : α) (s : RandStream)
    (h : l ≠ []) : (choiceD l d s).1 ∈ l := by
  unfold choiceD drawNat
  simp only
  have hlen : 0 < l.length := List.length_pos.mpr h
  have hlt : s 0 % l.length < l.length := Nat.mod_lt _ hlen
  rw [List.getD_eq_getElem l d hlt]
  exact List.getElem_mem hlt

theorem randInt_bounds (lo hi : Int) (s : RandStream) (h : lo ≤ hi) :
    lo ≤ (randInt lo hi s).1 ∧ (randInt lo hi s).1 ≤ hi := by
  unfold randInt drawNat
  simp only
  have hpos : 0 < (hi - lo + 1).toNat := by omega
  have hlt : s 0 % (hi - lo + 1).toNat < (hi - lo + 1).toNat := Nat.mod_lt _ hpos
  omega

/-- The load-store pair builder on the default catalog: it succeeds with
a load followed by a store; the store's rs2 field equals the load's
(non-zero) rd field; both base registers are non-zero; both offsets are
drawn with `randint(offset_min, offset_max)` and land in the overall
`[offset_min, offset_max]` hull; the offsets appear in the words' S/I
immediate fields. -/
theorem pair_dependency (pg : PGState) (s : RandStream) :
    ∃ wl al ws bs pg' s', ∃ loadImm storeImm : Int,
      generateLoadStorePair defaultISA pg s = .ok ([(wl, al), (ws, bs)], pg', s') ∧
      rs2Field ws = rdField wl ∧ rdField wl ≠ 0 ∧
      1 ≤ rs1Field wl ∧ rs1Field wl ≤ 31 ∧ 1 ≤ rs1Field ws ∧ rs1Field ws ≤ 31 ∧
      defaultISA.loadStoreOffsetMin ≤ loadImm ∧
      loadImm ≤ defaultISA.loadStoreOffsetMax ∧
      defaultISA.loadStoreOffsetMin ≤ storeImm ∧
      storeImm ≤ defaultISA.loadStoreOffsetMax ∧
      immIField wl = maskI 12 loadImm ∧
      f7Field ws = maskI 12 storeImm / 2 ^ 5 ∧
      rdField ws = maskI 12 storeImm % 2 ^ 5 := by
  have hLne : ¬(defaultISA.instructions.filter
      (fun i => i.name ∈ ["lw", "lh", "lb", "lhu", "lbu"]) = []) := by decide
  have hSne : ¬(defaultISA.instructions.filter
      (fun i => i.name ∈ ["sw", "sh", "sb"]) = []) := by decide
  have hmL := choiceD_fst_mem (defaultISA.instructions.filter
    (fun i => i.name ∈ ["lw", "lh", "lb", "lhu", "lbu"])) iAdd s hLne
  unfold generateLoadStorePair
  dsimp only
  simp only [if_neg hLne, if_neg hSne]
  rw [if_neg (by decide :
    ¬(defaultISA.instructions.filter
        (fun i => i.name ∈ ["lw", "lh", "lb", "lhu", "lbu"]) = [] ∨
      defaultISA.instructions.filter
        (fun i => i.name ∈ ["sw", "sh", "sb"]) = []))]
  generalize hcL : choiceD (defaultISA.instructions.filter
    (fun i => i.name ∈ ["lw", "lh", "lb", "lhu", "lbu"])) iAdd s = cL at hmL ⊢
  obtain ⟨load, sL⟩ := cL
  dsimp only at hmL ⊢
  have hfL : load.fmt = InstructionFormat.I :=
    (by decide : ∀ j ∈ defaultISA.instructions.filter
      (fun i => i.name ∈ ["lw", "lh", "lb", "lhu", "lbu"]),
        j.fmt = InstructionFormat.I) load hmL
  have hmS := choiceD_fst_mem (defaultISA.instructions.filter
    (fun i => i.name ∈ ["sw", "sh", "sb"])) iAdd sL hSne
  generalize hcS : choiceD (defaultISA.instructions.filter
    (fun i => i.name ∈ ["sw", "sh", "sb"])) iAdd sL = cS at hmS ⊢
  obtain ⟨store, sS⟩ := cS
  dsimp only at hmS ⊢
  have hfS : store.fmt = InstructionFormat.S :=
    (by decide : ∀ j ∈ defaultISA.instructions.filter
      (fun i => i.name ∈ ["sw", "sh", "sb"]),
        j.fmt = InstructionFormat.S) store hmS
  have hbRD := registersRandom_true_bounds sS
  generalize hrd : registersRandom true sS = pRD at hbRD ⊢
  obtain ⟨rd, s1⟩ := pRD
  dsimp only at hbRD ⊢
  have hbRS1 := registersRandom_true_bounds s1
  generalize hrs1 : registersRandom true s1 = pRS1 at hbRS1 ⊢
  obtain ⟨rs1, s2⟩ := pRS1
  dsimp only at hbRS1 ⊢
  have hbSR := registersRandom_true_bounds s2
  generalize hsr : registersRandom true s2 = pSR at hbSR ⊢
  obtain ⟨srs1, s3⟩ := pSR
  dsimp only at hbSR ⊢
  have hbLI := randInt_bounds defaultISA.loadStoreOffsetMin
    defaultISA.loadStoreOffsetMax s3 (by decide)
  generalize hli : randInt defaultISA.loadStoreOffsetMin
    defaultISA.loadStoreOffsetMax s3 = pLI at hbLI ⊢
  obtain ⟨limm, s4⟩ := pLI
  dsimp only at hbLI ⊢
  have hbSI := randInt_bounds defaultISA.loadStoreOffsetMin
    defaultISA.loadStoreOffsetMax s4 (by decide)
  generalize hsi : randInt defaultISA.loadStoreOffsetMin
    defaultISA.loadStoreOffsetMax s4 = pSI at hbSI ⊢
  obtain ⟨simm, s5⟩ := pSI
  dsimp only at hbSI ⊢
  refine ⟨_, _, _, _, _, _, limm, simm, rfl, ?_, ?_, ?_, ?_, ?_, ?_,
    hbLI.1, hbLI.2, hbSI.1, hbSI.2, ?_, ?_, ?_⟩
  · rw [rs2Field_encode _ _ _ _ _ (Or.inr (Or.inl hfS)),
      rdField_encode _ _ _ _ _ (Or.inr (Or.inl hfL))]
  · rw [rdField_encode _ _ _ _ _ (Or.inr (Or.inl hfL))]
    omega
  · rw [rs1Field_encode _ _ _ _ _ (Or.inr (Or.inl hfL))]
    omega
  · rw [rs1Field_encode _ _ _ _ _ (Or.inr (Or.inl hfL))]
    omega
  · rw [rs1Field_encode _ _ _ _ _ (Or.inr (Or.inr (Or.inl hfS)))]
    omega
  · rw [rs1Field_encode _ _ _ _ _ (Or.inr (Or.inr (Or.inl hfS)))]
    omega
  · exact immIField_encode _ _ _ _ _ hfL
  · exact f7Field_encode_S _ _ _ _ _ hfS
  · exact rdField_encode_S _ _ _ _ _ hfS

/-- C5.  Every pair from the load-store builder has the store's rs2 equal
to the load's non-zero rd (true dependency), base registers from separate
non-zero draws, and both offsets drawn with
`randint(offset_min, offset_max)` over the overall hull — not with the
union-of-ranges sampler `generate_load_store_offset`. -/
theorem c5_load_store_pair_fields :
    ∀ (pg : PGState) (s : RandStream),
      ∃ wl al ws bs pg' s', ∃ loadImm storeImm : Int,
        generateLoadStorePair defaultISA pg s = .ok ([(wl, al), (ws, bs)], pg', s') ∧
        rs2Field ws = rdField wl ∧ rdField wl ≠ 0 ∧
        1 ≤ rs1Field wl ∧ rs1Field wl ≤ 31 ∧ 1 ≤ rs1Field ws ∧ rs1Field ws ≤ 31 ∧
        defaultISA.loadStoreOffsetMin ≤ loadImm ∧
        loadImm ≤ defaultISA.loadStoreOffsetMax ∧
        defaultISA.loadStoreOffsetMin ≤ storeImm ∧
        storeImm ≤ defaultISA.loadStoreOffsetMax ∧
        immIField wl = maskI 12 loadImm ∧
        f7Field ws = maskI 12 storeImm / 2 ^ 5 ∧
        rdField ws = maskI 12 storeImm % 2 ^ 5 :=
  pair_dependency

/-- A legal catalog with two disjoint one-byte offset windows, {0} and
{100}: exactly what `RISCVISA(load_store_offset_ranges=[(0,1),(100,1)])`
builds. -/
def pairISA : RISCVISA :=
  { loadStoreOffsetRanges := [(0, 1), (100, 1)]
    loadStoreOffsetMin := 0
    loadStoreOffsetMax := 100
    rdMin := 0, rdMax := 31
    rs1Min := 0, rs1Max := 31
    rs2Min := 0, rs2Max := 31
    instructions := loadInstructions
    weights := fun _ => 1 }

/-- C5, counterexample to the claim as stated: on a catalog whose
configured windows are {0} and {100} (built by the constructor from
ranges [(0,1),(100,1)]), a concrete pair run draws offset 50 for both the
load and the store — inside the overall hull but outside every configured
[base, base+size) window, because the builder uses
`randint(offset_min, offset_max)` instead of the union-of-ranges
sampler. -/
theorem c5_counterexample :
    mkRISCVISA none (-2048) 2047 (some [((0 : Int), (1 : Int)), (100, 1)])
        0 31 0 31 0 31 = .ok pairISA ∧
    resultWords (generateLoadStorePair pairISA ⟨none, none, 0⟩
        (streamOf [2, 2, 4, 5, 6, 50, 50])) =
      [encode iLw 5 6 0 50, encode iSw 0 7 5 50] ∧
    immIField (encode iLw 5 6 0 50) = 50 ∧
    f7Field (encode iSw 0 7 5 50) = 50 / 2 ^ 5 ∧
    rdField (encode iSw 0 7 5 50) = 50 % 2 ^ 5 ∧
    pairISA.loadStoreOffsetRanges.all
      (fun p => decide (¬(p.1 ≤ (50 : Int) ∧ (50 : Int) < p.1 + p.2))) = true := by
  refine ⟨rfl, ?_, by decide, by decide, by decide, by decide⟩
  decide

/-- On the default catalog the total weight is 39, so weighted selection
always succeeds and consumes one draw. -/
theorem getRandomInstruction_default_ok (s : RandStream) :
    ∃ i, getRandomInstruction defaultISA s = .ok (i, RandStream.tail s) := by
  unfold getRandomInstruction choicesWeighted
  rw [if_neg (by norm_num [defaultISA, loadInstructions] :
    ¬(defaultISA.instructions.map (fun i => defaultISA.weights i.name)).sum ≤ 0)]
  exact ⟨_, rfl⟩

/-- The single-random-instruction builder always succeeds on the default
catalog. -/
theorem single_ok (pg : PGState) (s : RandStream) :
    ∃ pr pg' s',
      generateSingleRandomInstruction defaultISA pg none s = .ok (pr, pg', s') := by
  obtain ⟨i, hi⟩ := getRandomInstruction_default_ok s
  unfold generateSingleRandomInstruction
  dsimp only
  rw [hi]
  exact ⟨_, _, _, rfl⟩

/-- The pair builder always succeeds with exactly two instructions. -/
theorem pair_ok (pg : PGState) (s : RandStream) :
    ∃ l pg' s',
      generateLoadStorePair defaultISA pg s = .ok (l, pg', s') ∧ l.length = 2 := by
  obtain ⟨wl, al, ws, bs, pg', s', li, si, heq, -⟩ := pair_dependency pg s
  exact ⟨_, _, _, heq, rfl⟩

/-- The RAW builder always succeeds with exactly two instructions. -/
theorem raw_ok (pg : PGState) (s : RandStream) :
    ∃ l pg' s',
      generateRawHazard defaultISA pg s = .ok (l, pg', s') ∧ l.length = 2 := by
  obtain ⟨rd, w1, b1, w2, b2, pg', s', heq, -⟩ := rawHazard_dependency pg s
  exact ⟨_, _, _, heq, rfl⟩

/-- The WAR builder always succeeds with exactly two instructions. -/
theorem war_ok (pg : PGState) (s : RandStream) :
    ∃ l pg' s',
      generateWarHazard defaultISA pg s = .ok (l, pg', s') ∧ l.length = 2 := by
  obtain ⟨hz, w1, b1, w2, b2, pg', s', heq, -⟩ := warHazard_dependency pg s
  exact ⟨_, _, _, heq, rfl⟩

/-- The WAW builder always succeeds with exactly two instructions. -/
theorem waw_ok (pg : PGState) (s : RandStream) :
    ∃ l pg' s',
      generateWawHazard defaultISA pg s = .ok (l, pg', s') ∧ l.length = 2 := by
  obtain ⟨w1, b1, w2, b2, s', heq, -⟩ := wawHazard_writes_shared_rd pg s
  exact ⟨_, _, _, heq, rfl⟩

/-- The mixed-pattern loop emits exactly `remaining` instructions on the
default catalog, whatever patterns the draws select. -/
theorem mixedGo_length (remaining : Nat) :
    ∀ (pats : List String) (density : ℚ) (pg : PGState) (s : RandStream),
      ∃ l pg' s',
        generateMixedGo defaultISA pats density pg remaining s = .ok (l, pg', s') ∧
        l.length = remaining := by
  induction remaining using Nat.strong_induction_on with
  | _ remaining ih =>
  intro pats density pg s
  rw [generateMixedGo]
  by_cases h0 : remaining = 0
  · rw [dif_pos h0]
    exact ⟨[], pg, s, rfl, h0.symm⟩
  rw [dif_neg h0]
  by_cases h2 : 2 ≤ remaining
  · rw [dif_pos h2]
    dsimp only
    by_cases hr : (randFloat s).1 < density
    · rw [if_pos hr]
      by_cases hp1 : (choiceD pats "random" (randFloat s).2).1 = "load_store"
      · rw [if_pos ⟨hp1, h2⟩]
        obtain ⟨l2, pgA, sA, heqA, hlenA⟩ :=
          pair_ok pg (choiceD pats "random" (randFloat s).2).2
        rw [heqA]
        dsimp only
        obtain ⟨lr, pgB, sB, heqB, hlenB⟩ :=
          ih (remaining - 2) (by omega) pats density pgA sA
        rw [heqB]
        exact ⟨l2 ++ lr, pgB, sB, rfl, by rw [List.length_append, hlenA, hlenB]; omega⟩
      · rw [if_neg (fun h => hp1 h.1)]
        by_cases hp2 : (choiceD pats "random" (randFloat s).2).1 = "raw"
        · rw [if_pos ⟨hp2, h2⟩]
          obtain ⟨l2, pgA, sA, heqA, hlenA⟩ :=
            raw_ok pg (choiceD pats "random" (randFloat s).2).2
          rw [heqA]
          dsimp only
          obtain ⟨lr, pgB, sB, heqB, hlenB⟩ :=
            ih (remaining - 2) (by omega) pats density pgA sA
          rw [heqB]
          exact ⟨l2 ++ lr, pgB, sB, rfl, by rw [List.length_append, hlenA, hlenB]; omega⟩
        · rw [if_neg (fun h => hp2 h.1)]
          by_cases hp3 : (choiceD pats "random" (randFloat s).2).1 = "war"
          · rw [if_pos ⟨hp3, h2⟩]
            obtain ⟨l2, pgA, sA, heqA, hlenA⟩ :=
              war_ok pg (choiceD pats "random" (randFloat s).2).2
            rw [heqA]
            dsimp only
            obtain ⟨lr, pgB, sB, heqB, hlenB⟩ :=
              ih (remaining - 2) (by omega) pats density pgA sA
            rw [heqB]
            exact ⟨l2 ++ lr, pgB, sB, rfl,
              by rw [List.length_append, hlenA, hlenB]; omega⟩
          · rw [if_neg (fun h => hp3 h.1)]
            by_cases hp4 : (choiceD pats "random" (randFloat s).2).1 = "waw"
            · rw [if_pos ⟨hp4, h2⟩]
              obtain ⟨l2, pgA, sA, heqA, hlenA⟩ :=
                waw_ok pg (choiceD pats "random" (randFloat s).2).2
              rw [heqA]
              dsimp only
              obtain ⟨lr, pgB, sB, heqB, hlenB⟩ :=
                ih (remaining - 2) (by omega) pats density pgA sA
              rw [heqB]
              exact ⟨l2 ++ lr, pgB, sB, rfl,
                by rw [List.length_append, hlenA, hlenB]; omega⟩
            · rw [if_neg (fun h => hp4 h.1)]
              obtain ⟨pr, pgA, sA, heqA⟩ :=
                single_ok pg (choiceD pats "random" (randFloat s).2).2
              rw [heqA]
              dsimp only
              obtain ⟨lr, pgB, sB, heqB, hlenB⟩ :=
                ih (remaining - 1) (by omega) pats density pgA sA
              rw [heqB]
              exact ⟨pr :: lr, pgB, sB, rfl,
                by rw [List.length_cons, hlenB]; omega⟩
    · rw [if_neg hr]
      obtain ⟨pr, pgA, sA, heqA⟩ := single_ok pg (randFloat s).2
      rw [heqA]
      dsimp only
      obtain ⟨lr, pgB, sB, heqB, hlenB⟩ :=
        ih (remaining - 1) (by omega) pats density pgA sA
      rw [heqB]
      exact ⟨pr :: lr, pgB, sB, rfl, by rw [List.length_cons, hlenB]; omega⟩
  · rw [dif_neg h2]
    obtain ⟨pr, pgA, sA, heqA⟩ := single_ok pg s
    rw [heqA]
    dsimp only
    obtain ⟨lr, pgB, sB, heqB, hlenB⟩ :=
      ih (remaining - 1) (by omega) pats density pgA sA
    rw [heqB]
    exact ⟨pr :: lr, pgB, sB, rfl, by rw [List.length_cons, hlenB]; omega⟩

/-- C3.  For every count, pattern list and density, the mixed-pattern
generator on the default catalog returns exactly `count` instruction
tuples — never fewer, never more — whatever 2-slot patterns the draws
choose; in particular count = 7 with density 1.0 always yields exactly
7 instructions. -/
theorem c3_mixed_returns_exact_count :
    (∀ (count : Nat) (opats : Option (List String)) (density : ℚ)
        (pg : PGState) (s : RandStream),
      ∃ l pg' s',
        generateMixedPatterns defaultISA pg count opats density s =
          .ok (l, pg', s') ∧ l.length = count) ∧
    (∀ (pg : PGState) (s : RandStream),
      ∃ l pg' s',
        generateMixedPatterns defaultISA pg 7 none 1 s = .ok (l, pg', s') ∧
        l.length = 7) := by
  have main : ∀ (count : Nat) (opats : Option (List String)) (density : ℚ)
      (pg : PGState) (s : RandStream),
      ∃ l pg' s',
        generateMixedPatterns defaultISA pg count opats density s =
          .ok (l, pg', s') ∧ l.length = count := by
    intro count opats density pg s
    obtain ⟨l, pg', s', heq, hlen⟩ := mixedGo_length count
      (opats.getD ["random", "load_store", "raw", "war", "waw"])
      (max 0 (min 1 density)) pg s
    unfold generateMixedPatterns
    dsimp only
    rw [heq]
    exact ⟨l.take count, pg', s', rfl,
      by rw [List.length_take, hlen, Nat.min_self]⟩
  exact ⟨main, fun pg s => main 7 none 1 pg s⟩

/-! ## Sequence patterns (`sequence_patterns.py`) -/

/-- A register-field specification as the YAML steps supply it
(`SequenceStep.resolve_register`'s `reg_spec` argument): `None`, a bare
integer, or a dict of one of the four recognized `type` shapes; `other`
stands for a dict whose `type` matches no branch. -/
inductive RegSpec where
  | lit (n : Int)
  | register (value : Option Int) (allowed : Option (List Int)) (excludeZero : Bool)
  | var (name : Option String)
  | sameAs (field : Option String)
  | differentFrom (excludeRegs : List (Int ⊕ String)) (allowed : Option (List Int))
  | other
deriving DecidableEq, Repr

/-- `SequenceStep.__init__` (`sequence_patterns.py` 17-25), the dispatch
on `step_type`: the type defaults to `"instruction"`, and any other type
raises at load time. -/
def mkSequenceStep (ostepType : Option String) (stepIndex : Nat) :
    Except GErr (Nat × String) :=
  let st := ostepType.getD "instruction"
  if st = "instruction" then .ok (stepIndex, st)
  else .error (.valueError ("Unsupported step type: " ++ st))

/-- The exclude set of `resolve_register`'s `different_from` branch
(`sequence_patterns.py` 96-103): literal registers, plus bound variables
(unbound ones are skipped). -/
def excludeSet (ctx : List (String × Int)) : List (Int ⊕ String) → List Int
  | [] => []
  | .inl n :: rest => n :: excludeSet ctx rest
  | .inr nm :: rest =>
      match ctx.lookup nm with
      | some v => v :: excludeSet ctx rest
      | none => excludeSet ctx rest

/-- `SequenceStep.resolve_register` (`sequence_patterns.py` 55-112).
`specs` is the step's `reg_specs` table (consulted by `same_as`), `ctx`
the context's `variables` dict; `fuel` bounds the `same_as` recursion,
which Python does not bound.  Every path Python ends at the line-112
`return random.randint(0, 31)` ends with that same draw here — including
a `variable` spec whose name is not bound in the context. -/
def resolveRegister (specs : List (String × RegSpec)) :
    Nat → Option RegSpec → List (String × Int) → RandStream →
    Except GErr (Int × RandStream)
  | _, none, _, s => .ok (0, s)
  | _, some (.lit n), _, s => .ok (n, s)
  | _, some (.register (some v) _ _), _, s => .ok (v, s)
  | _, some (.register none (some l) exz), _, s =>
      if l ≠ [] then
        let (reg, s) := choiceD l 0 s
        if exz ∧ reg = 0 then
          let nz := l.filter (fun r => r ≠ 0)
          if nz ≠ [] then .ok (choiceD nz 0 s)
          else .ok (reg, s)
        else .ok (reg, s)
      else .ok (randInt 0 31 s)
  | _, some (.register none none _), _, s => .ok (randInt 0 31 s)
  | _, some (.var onm), ctx, s =>
      (match onm with
      | some nm =>
        match ctx.lookup nm with
        | some v => .ok (v, s)
        | none => .ok (randInt 0 31 s)
      | none => .ok (randInt 0 31 s))
  | fuel, some (.sameAs ofield), ctx, s =>
      (match ofield with
      | some f =>
        (match specs.lookup f with
        | some spec2 =>
          (match fuel with
          | 0 => .error .hung
          | fuel + 1 => resolveRegister specs fuel (some spec2) ctx s)
        | none => .ok (randInt 0 31 s))
      | none => .ok (randInt 0 31 s))
  | _, some (.differentFrom exRegs oallowed), ctx, s =>
      let ex := excludeSet ctx exRegs
      let allowed := oallowed.getD ((List.range 32).map (fun n => (n : Int)))
      let candidates := allowed.filter (fun r => r ∉ ex)
      if candidates ≠ [] then .ok (choiceD candidates 0 s)
      else .ok (randInt 0 31 s)
  | _, some .other, _, s => .ok (randInt 0 31 s)

/-- C8.  An unsupported step type is rejected at pattern-load time with
`ValueError("Unsupported step type: ...")`; but a register specification
referencing a variable that is not bound in the current context does NOT
fail at step-resolution time — `resolve_register` falls through to
`random.randint(0, 31)` and silently produces a random register. -/
theorem c8_template_errors :
    (∀ (st : String) (idx : Nat), st ≠ "instruction" →
      mkSequenceStep (some st) idx =
        .error (.valueError ("Unsupported step type: " ++ st))) ∧
    (∀ (specs : List (String × RegSpec)) (fuel : Nat) (nm : String)
        (ctx : List (String × Int)) (s : RandStream),
      ctx.lookup nm = none →
      resolveRegister specs fuel (some (.var (some nm))) ctx s =
        .ok (randInt 0 31 s)) := by
  constructor
  · intro st idx h
    unfold mkSequenceStep
    dsimp only [Option.getD]
    rw [if_neg h]
  · intro specs fuel nm ctx s h
    unfold resolveRegister
    dsimp only
    rw [h]

/-- C8's theorem applied at the concrete inputs: step type
`"memory_barrier"` at index 3 is refused with the exact message, and a
`variable` spec naming `"base"` in an empty context resolves to the
fall-through draw. -/
theorem c8_witness :
    mkSequenceStep (some "memory_barrier") 3 =
      .error (.valueError ("Unsupported step type: " ++ "memory_barrier")) ∧
    resolveRegister [] 0 (some (.var (some "base"))) [] (streamOf [7]) =
      .ok (randInt 0 31 (streamOf [7])) :=
  ⟨c8_template_errors.1 "memory_barrier" 3 (by decide),
   c8_template_errors.2 [] 0 "base" [] (streamOf [7]) rfl⟩

/-- C8, counterexample to the claim as stated: resolving a `variable`
register spec whose name `"loop_reg"` is unbound does not fail — it
succeeds and returns register 12 (the next draw of the stream), exactly
the "silently producing some register" the spec rules out. -/
theorem c8_counterexample :
    resolveRegister [] 0 (some (.var (some "loop_reg"))) [] (streamOf [12]) =
      .ok (12, (streamOf [12]).tail) := rfl

end RVGen
